import Mathlib

/-! h2c-client: settings model, upgrade request, and the four commands of the client.

A shallow embedding of `client.go`.  Go strings are Lean `String`s, machine
integers are `Nat`/`Int` with explicit reduction modulo `2 ^ w` where the source
converts, a nil-able handle is an `Option`, and a command handler is a function
from the session state and the argument tokens to a result and the next state.
The library calls the source makes (`encoding/binary`, `strings`, `strconv`,
`net`, `net/http`, `x/net/http2`) are embedded by their documented behaviour.
-/

set_option autoImplicit false

namespace H2c

/-! ## Settings model (`client.go` lines 23-73) -/

/-- The type `http2.Setting`: a 16-bit identifier and a 32-bit value. -/
structure Setting where
  ID : Nat
  Val : Nat
deriving DecidableEq, Repr

/-- The constant `http2.SettingEnablePush`. -/
def SettingEnablePush : Nat := 0x2

/-- The constant `http2.SettingMaxConcurrentStreams`. -/
def SettingMaxConcurrentStreams : Nat := 0x3

/-- The constant `http2.SettingInitialWindowSize`. -/
def SettingInitialWindowSize : Nat := 0x4

/-- The constant `http2.SettingMaxFrameSize`. -/
def SettingMaxFrameSize : Nat := 0x5

/-- The struct `settings`, fields in declaration order. -/
structure settings where
  enablePush : Setting
  maxConcurrentStreams : Setting
  initWindowSize : Setting
  maxFrameSize : Setting
deriving DecidableEq, Repr

/-- The function `binary.BigEndian.PutUint16`: high byte first, each byte a truncation. -/
def putUint16 (v : Nat) : List Nat :=
  [(v / 2 ^ 8) % 256, v % 256]

/-- The function `binary.BigEndian.PutUint32`: high byte first, each byte a truncation. -/
def putUint32 (v : Nat) : List Nat :=
  [(v / 2 ^ 24) % 256, (v / 2 ^ 16) % 256, (v / 2 ^ 8) % 256, v % 256]

/-- What `binary.Write` emits for one `http2.Setting`: its fields in order, unpadded. -/
def Setting.write (s : Setting) : List Nat :=
  putUint16 s.ID ++ putUint32 s.Val

/-- The method `settings.ToBytes`: `binary.Write` of the struct in big-endian order, which
writes the four fields one after the other. -/
def settings.ToBytes (s : settings) : List Nat :=
  s.enablePush.write ++ s.maxConcurrentStreams.write ++ s.initWindowSize.write
    ++ s.maxFrameSize.write

/-- The settings literal of `newClient`. -/
def defaultSettings : settings :=
  { enablePush := { ID := SettingEnablePush, Val := 0 }
    maxConcurrentStreams := { ID := SettingMaxConcurrentStreams, Val := 250 }
    initWindowSize := { ID := SettingInitialWindowSize, Val := 65535 }
    maxFrameSize := { ID := SettingMaxFrameSize, Val := 16384 } }

/-- The function `applySetting`: a positive `cfg` is stored as `uint32(cfg)` and reported,
anything else leaves the setting alone. -/
def applySetting (cfg : Int) (setting : Setting) : Bool × Setting :=
  if cfg > 0 then (true, { setting with Val := (cfg % 2 ^ 32).toNat })
  else (false, setting)

/-- The value a list of bytes denotes when read big-endian. -/
def beValue (bs : List Nat) : Nat :=
  bs.foldl (fun acc b => acc * 256 + b) 0

/-- The four identifiers a settings value carries, in field order. -/
def settings.ids (s : settings) : List Nat :=
  [s.enablePush.ID, s.maxConcurrentStreams.ID, s.initWindowSize.ID, s.maxFrameSize.ID]

/-- The four values a settings value carries, in field order. -/
def settings.vals (s : settings) : List Nat :=
  [s.enablePush.Val, s.maxConcurrentStreams.Val, s.initWindowSize.Val, s.maxFrameSize.Val]

/-! ## Library calls on strings (`strings.Split`, `strconv.Atoi`) -/

/-- The pieces of a character sequence between the occurrences of `sep`; a sequence
without `sep` is its own single piece. -/
def splitChars (sep : Char) : List Char → List (List Char)
  | [] => [[]]
  | c :: cs =>
    if c = sep then [] :: splitChars sep cs
    else
      match splitChars sep cs with
      | [] => [[c]]
      | p :: ps => (c :: p) :: ps

/-- The function `strings.Split` for a one-character separator, as in `strings.Split(v, "=")`. -/
def Split (s : String) (sep : Char) : List String :=
  (splitChars sep s.data).map String.mk

/-- The size in bits of Go's `int` (`strconv.IntSize`) on the 64-bit platforms. -/
def intSize : Nat := 64

/-- The digit loop of `strconv.ParseUint` in base 10: every character must be one of
`0` to `9`; the value is accumulated from the left. -/
def parseDigits : List Char → Nat → Option Nat
  | [], acc => some acc
  | c :: cs, acc =>
    if c.isDigit then parseDigits cs (acc * 10 + (c.toNat - '0'.toNat)) else none

/-- An unsigned decimal numeral: at least one digit, nothing but digits. -/
def parseUnsigned (cs : List Char) : Option Nat :=
  if cs = [] then none else parseDigits cs 0

/-- The function `strconv.Atoi`, which is `ParseInt(s, 10, 0)` converted to `int`: an
optional sign followed by decimal digits, in the range of `int`.  The result is `none`
when Go returns a non-nil error (syntax or range); the client looks at nothing else of
the error. -/
def Atoi (s : String) : Option Int :=
  match s.data with
  | '-' :: ds =>
    match parseUnsigned ds with
    | some n => if n ≤ 2 ^ (intSize - 1) then some (-(n : Int)) else none
    | none => none
  | '+' :: ds =>
    match parseUnsigned ds with
    | some n => if n < 2 ^ (intSize - 1) then some (n : Int) else none
    | none => none
  | ds =>
    match parseUnsigned ds with
    | some n => if n < 2 ^ (intSize - 1) then some (n : Int) else none
    | none => none

/-! ## Session state -/

/-- Modelled from the spec: the package `term` of this repository is not among the sources.
The terminal is the REPL front end that holds "a mutable status banner" and takes the
"informational output" of the handlers: `Status` is the banner, `info` the messages given
to `WriteInfoMessage`, oldest first. -/
structure Terminal where
  Status : String
  info : List String
deriving DecidableEq, Repr

/-- Modelled from the spec: `term.Terminal.WriteInfoMessage`, missing with the package
`term`; it reports one message as informational output. -/
def Terminal.WriteInfoMessage (t : Terminal) (msg : String) : Terminal :=
  { t with info := t.info ++ [msg] }

/-- The type `http2.ClientConn` as far as the client observes it: the byte stream it runs
on, whether `Close` was called on it, and whether the engine refuses new requests for a
reason of its own (a GOAWAY from the peer, a broken stream, ...). -/
structure ClientConn where
  stream : Nat
  closed : Bool
  refusing : Bool
deriving DecidableEq, Repr

/-- The method `http2.ClientConn.CanTakeNewRequest`. -/
def ClientConn.CanTakeNewRequest (cc : ClientConn) : Bool :=
  !cc.closed && !cc.refusing

/-- The method `http2.ClientConn.Close`. -/
def ClientConn.Close (cc : ClientConn) : ClientConn :=
  { cc with closed := true }

/-- The fields of `url.URL` that the client sets. -/
structure URL where
  Scheme : String
  Host : String
deriving DecidableEq, Repr

/-- The struct `H2cClient`.  A byte stream (`net.Conn`) is named by a number; `none` is the
nil handle.  The field `term` is `true` once `main` has stored the session terminal in it
and `false` while it is nil. -/
structure H2cClient where
  conn : Option Nat
  http2Conn : Option ClientConn
  settings : H2c.settings
  url : URL
  term : Bool
deriving DecidableEq, Repr

/-- The function `newClient`: every field but the settings has its zero value. -/
def newClient : H2cClient :=
  { conn := none
    http2Conn := none
    settings := defaultSettings
    url := { Scheme := "", Host := "" }
    term := false }

/-- An HTTP/1.1 request as `http.NewRequest` and `addH2cUpgrade` build it: method, target
URL and the header fields in the order they were added. -/
structure Request where
  Method : String
  URL : H2c.URL
  Header : List (String × String)
deriving DecidableEq, Repr

/-- What a handler does to the world outside the client, in the order it happens. -/
inductive Event
  | dial (address : String)
  | writeRequest (stream : Nat) (req : Request)
  | newClientConn (stream : Nat)
  | close (stream : Nat)
  | writeSettings (stream : Nat) (entries : List Setting)
  | ping (stream : Nat)
  | roundTrip (stream : Nat) (url : String)
deriving DecidableEq, Repr

/-- The state a command handler runs in: the client, the terminal `t` it is called with
(the one `main` also stores in `client.term`), and the events so far. -/
structure Session where
  client : H2cClient
  t : Terminal
  trace : List Event
deriving DecidableEq, Repr

/-- How a handler ends: `ok msg` is `return msg, nil`, `error msg` is
`return "", fmt.Errorf(msg)`, and `fault` is a nil dereference, after which the handler
returns nothing. -/
inductive Result
  | ok (msg : String)
  | error (msg : String)
  | fault
deriving DecidableEq, Repr

/-- The client as `main` leaves it before the first command: `newClient` with the session
terminal stored in `client.term`. -/
def initialSession : Session :=
  { client := { newClient with term := true }
    t := { Status := "", info := [] }
    trace := [] }

/-! ## The `settings` command (`client.go` lines 140-185) -/

/-- The four `*http2.Setting` pointers that the map `m` of `settingsCmd` holds. -/
inductive Field
  | enablePush
  | maxConcurrentStreams
  | initWindowSize
  | maxFrameSize
deriving DecidableEq, Repr

/-- Reading through one of the pointers. -/
def Field.get (f : Field) (s : settings) : Setting :=
  match f with
  | .enablePush => s.enablePush
  | .maxConcurrentStreams => s.maxConcurrentStreams
  | .initWindowSize => s.initWindowSize
  | .maxFrameSize => s.maxFrameSize

/-- Writing through one of the pointers. -/
def Field.set (f : Field) (s : settings) (v : Setting) : settings :=
  match f with
  | .enablePush => { s with enablePush := v }
  | .maxConcurrentStreams => { s with maxConcurrentStreams := v }
  | .initWindowSize => { s with initWindowSize := v }
  | .maxFrameSize => { s with maxFrameSize := v }

/-- The map `m` of `settingsCmd`: the lookup `m[name]`, `none` when `ok` is false. -/
def settingsCmd.m (name : String) : Option Field :=
  if name = "push" then some .enablePush
  else if name = "maxStream" then some .maxConcurrentStreams
  else if name = "windowSize" then some .initWindowSize
  else if name = "frameSize" then some .maxFrameSize
  else none

/-- One round of the `for _, v := range args` loop of `settingsCmd`: the error the round
returns with, or the session after it. -/
def settingsCmd.body (s : Session) (v : String) : Except String Session :=
  let results := Split v '='
  if results.length < 2 || results.getD 1 "" == "" then
    .error ("The cmd " ++ v ++ " is ivalid format(setting=value)")
  else
    match Atoi (results.getD 1 "") with
    | none => .error ("Invalid value " ++ results.getD 1 "")
    | some value =>
      match settingsCmd.m (results.getD 0 "") with
      | none => .error ("Invalid setting option " ++ results.getD 0 "")
      | some setting =>
        let r := applySetting value (setting.get s.client.settings)
        let client := { s.client with settings := setting.set s.client.settings r.2 }
        if r.1 then
          .ok { s with
                client := client
                t := s.t.WriteInfoMessage
                  ("setting " ++ results.getD 0 "" ++ " was updated to " ++ results.getD 1 "") }
        else .ok { s with client := client }

/-- The loop of `settingsCmd` over the tokens: it stops at the first round that returns an
error, with the session as the rounds before it left it. -/
def settingsCmd.loop : Session → List String → Option String × Session
  | s, [] => (none, s)
  | s, v :: rest =>
    match settingsCmd.body s v with
    | .error e => (some e, s)
    | .ok s1 => settingsCmd.loop s1 rest

/-- The text `fmt.Sprintf` renders at the end of `settingsCmd`. -/
def settingsCmd.updated (push : Bool) (s : settings) : String :=
  "Enable Push: " ++ toString push ++ " | Max Concurrent Streams: "
    ++ toString s.maxConcurrentStreams.Val ++ " | Init Window Size: "
    ++ toString s.initWindowSize.Val ++ " | Max Frame Size: " ++ toString s.maxFrameSize.Val

/-- The handler returned by `settingsCmd`. -/
def settingsCmd (s : Session) (args : List String) : Result × Session :=
  match settingsCmd.loop s args with
  | (some e, s1) => (.error e, s1)
  | (none, s1) =>
    let push := decide (s1.client.settings.enablePush.Val > 0)
    let updated := settingsCmd.updated push s1.client.settings
    match s1.client.http2Conn with
    | none => (.ok updated, s1)
    | some cc =>
      if cc.CanTakeNewRequest then
        match s1.client.conn with
        | none => (.fault, s1)
        | some conn =>
          (.ok updated,
            { s1 with
              trace := s1.trace ++
                [.writeSettings conn
                  [s1.client.settings.enablePush, s1.client.settings.initWindowSize,
                    s1.client.settings.maxConcurrentStreams, s1.client.settings.maxFrameSize]] })
      else (.ok updated, s1)

/-! ## The `close` command (`client.go` lines 92-101) -/

/-- The handler returned by `closeCmd`.  The assignment `client.term.Status = ""` goes
through the pointer `client.term`, which is the session terminal or nil. -/
def closeCmd (s : Session) (_args : List String) : Result × Session :=
  match s.client.http2Conn with
  | some cc =>
    let s1 : Session :=
      { s with
        client := { s.client with http2Conn := some cc.Close }
        trace := s.trace ++ [.close cc.stream] }
    if s1.client.term then (.ok "connetion closed", { s1 with t := { s1.t with Status := "" } })
    else (.fault, s1)
  | none => (.error "no connection", s)

/-! ## The upgrade request (`client.go` lines 75-90) -/

/-- The alphabet of `base64.URLEncoding`. -/
def encodeURL : List Char :=
  "ABCDEFGHIJKLMNOPQRSTUVWXYZabcdefghijklmnopqrstuvwxyz0123456789-_".data

/-- The character for a 6-bit group. -/
def encodeURL.char (v : Nat) : Char :=
  encodeURL.getD (v % 64) 'A'

/-- The encoder of `base64.RawURLEncoding`: three bytes give four characters, and a last
group of one or two bytes gives two or three characters with no padding. -/
def RawURLEncoding.encode : List Nat → List Char
  | a :: b :: c :: rest =>
    encodeURL.char (a / 4) :: encodeURL.char (a % 4 * 16 + b / 16)
      :: encodeURL.char (b % 16 * 4 + c / 64) :: encodeURL.char (c % 64)
      :: RawURLEncoding.encode rest
  | [a, b] =>
    [encodeURL.char (a / 4), encodeURL.char (a % 4 * 16 + b / 16), encodeURL.char (b % 16 * 4)]
  | [a] => [encodeURL.char (a / 4), encodeURL.char (a % 4 * 16)]
  | [] => []

/-- The method `base64.RawURLEncoding.EncodeToString`. -/
def RawURLEncoding.EncodeToString (src : List Nat) : String :=
  String.mk (RawURLEncoding.encode src)

/-- The function `addH2cUpgrade`: the three `req.Header.Add` calls, in order, with the
names as the source passes them (Go files them under their canonical spelling, which
differs in letter case only; header names are case-insensitive). -/
def addH2cUpgrade (req : Request) (h2cSettings : settings) : Request :=
  let settings := RawURLEncoding.EncodeToString h2cSettings.ToBytes
  { req with
    Header := req.Header ++
      [("Upgrade", "h2c"), ("Connection", "HTTP2-Settings"), ("HTTP2-Settings", settings)] }

/-- The type `http.Response` as far as the client looks at it. -/
structure Response where
  StatusCode : Nat
deriving DecidableEq, Repr

/-- What the network and the HTTP/2 engine answer during one command: `Dial` is
`net.Dial("tcp", address)` (a byte stream, or the error text), `ReadResponse` is
`http.ReadResponse` on a stream after the request was written to it (`none` when Go
returns a nil response with an error), and `NewClientConn` is
`http2.Transport.NewClientConn` (a connection, or the error text with a nil connection). -/
structure Net where
  Dial : String → Except String Nat
  ReadResponse : Nat → Request → Option Response
  NewClientConn : Nat → Except String ClientConn

/-- The method `H2cClient.sendUpgradeRequest` on the byte stream `conn` that `connectCmd`
has just stored in `c.conn`: the request written to the stream and the response read back.
The request is a GET for `c.url`, which a scheme and a host make up. -/
def H2cClient.sendUpgradeRequest (c : H2cClient) (net : Net) (conn : Nat) :
    Event × Option Response :=
  let req := addH2cUpgrade { Method := "GET", URL := c.url, Header := [] } c.settings
  (.writeRequest conn req, net.ReadResponse conn req)

/-! ## The `connect` command (`client.go` lines 187-226) -/

/-- The position of the first `c` in a character sequence (`bytealg.IndexByteString`);
`none` where Go returns `-1`. -/
def IndexByteString : List Char → Char → Option Nat
  | [], _ => none
  | x :: xs, c => if x = c then some 0 else (IndexByteString xs c).map (· + 1)

/-- The position of the last `c` in a character sequence; `none` where Go returns `-1`. -/
def last (cs : List Char) (c : Char) : Option Nat :=
  (IndexByteString cs.reverse c).map (fun k => cs.length - 1 - k)

/-- The function `net.SplitHostPort`: host, port and the error, which is `none` for nil.
Every error return gives the empty host and the empty port. -/
def SplitHostPort (hostport : String) : String × String × Option String :=
  let cs := hostport.data
  let addrErr (why : String) : String × String × Option String := ("", "", some why)
  let finish (host : List Char) (j k i : Nat) : String × String × Option String :=
    if (IndexByteString (cs.drop j) '[').isSome then addrErr "unexpected '[' in address"
    else if (IndexByteString (cs.drop k) ']').isSome then addrErr "unexpected ']' in address"
    else (String.mk host, String.mk (cs.drop (i + 1)), none)
  match last cs ':' with
  | none => addrErr "missing port in address"
  | some i =>
    if cs.head? = some '[' then
      match IndexByteString cs ']' with
      | none => addrErr "missing ']' in address"
      | some e =>
        if e + 1 = cs.length then addrErr "missing port in address"
        else if e + 1 = i then finish ((cs.take e).drop 1) 1 (e + 1) i
        else if cs.get? (e + 1) = some ':' then addrErr "too many colons in address"
        else addrErr "missing port in address"
    else
      let host := cs.take i
      if (IndexByteString host ':').isSome then addrErr "too many colons in address"
      else finish host 0 0 i

/-- The function `net.JoinHostPort`. -/
def JoinHostPort (host port : String) : String :=
  if (IndexByteString host.data ':').isSome then "[" ++ host ++ "]:" ++ port
  else host ++ ":" ++ port

/-- The address `connectCmd` computes from its first argument (lines 192-195): the
argument itself, replaced by `net.JoinHostPort(h, "80")` when `net.SplitHostPort` returns
an error, where `h` is the host that call returned. -/
def connectCmd.host (arg0 : String) : String :=
  let r := SplitHostPort arg0
  if r.2.2.isSome then JoinHostPort r.1 "80" else arg0

/-- The handler returned by `connectCmd`. -/
def connectCmd (net : Net) (s : Session) (args : List String) : Result × Session :=
  match args with
  | [] => (.error "missing host", s)
  | arg0 :: _ =>
    let host := connectCmd.host arg0
    let s1 : Session :=
      match s.client.http2Conn with
      | some cc =>
        if cc.CanTakeNewRequest then
          { s with
            client := { s.client with http2Conn := some cc.Close }
            trace := s.trace ++ [.close cc.stream] }
        else s
      | none => s
    let s2 : Session := { s1 with trace := s1.trace ++ [.dial host] }
    match net.Dial host with
    | .error err => (.error ("dial to server [" ++ host ++ "] failed " ++ err), s2)
    | .ok conn =>
      let client := { s2.client with conn := some conn, url := { Scheme := "http", Host := host } }
      let sent := client.sendUpgradeRequest net conn
      let s3 : Session := { s2 with client := client, trace := s2.trace ++ [sent.1] }
      match sent.2 with
      | none => (.fault, s3)
      | some resp =>
        if resp.StatusCode ≠ 101 then (.error "The server does not support h2c", s3)
        else
          let s4 : Session := { s3 with trace := s3.trace ++ [.newClientConn conn] }
          match net.NewClientConn conn with
          | .error err =>
            (.error ("init HTTP/2 connection failed " ++ err),
              { s4 with client := { s4.client with http2Conn := none } })
          | .ok cc =>
            (.ok "create a connection to server",
              { s4 with
                client := { s4.client with http2Conn := some cc }
                t := { s4.t with Status := "connected to " ++ host } })

/-- The payload of the SETTINGS frame that `http2.Framer.WriteSettings` writes: for each
setting given, in the order given, the 16-bit identifier and the 32-bit value, big-endian. -/
def WriteSettings.payload : List Setting → List Nat
  | [] => []
  | e :: rest => e.write ++ WriteSettings.payload rest

/-! ## The `send` command (`client.go` lines 103-138) -/

/-- The method `url.URL.String` for a URL made of a scheme and a host whose characters
need no escaping: the scheme with a colon, then `//` and the host when there is one. -/
def URL.String (u : URL) : String :=
  (if u.Scheme = "" then "" else u.Scheme ++ ":") ++ (if u.Host = "" then "" else "//" ++ u.Host)

/-- What the HTTP/2 engine and `net/http` answer during one `send` command.  `Ping` is
`ClientConn.Ping` (the error text, `none` for nil), `NewRequest` tells whether
`http.NewRequest` builds a request for a URL text (it returns nil with an error when the
text does not parse), and `RoundTrip` is `ClientConn.RoundTrip` followed by
`ioutil.ReadAll` of the body (the response and the bytes read, or the error text).  `Ping`
and `RoundTrip` also give the state the connection is in afterwards. -/
structure Engine where
  Ping : ClientConn → Option String × ClientConn
  NewRequest : String → Bool
  RoundTrip : ClientConn → String → Except String (Response × String) × ClientConn

/-- The handler returned by `sendRequestCmd`.  With a nil request `RoundTrip` dereferences
it before anything is sent. -/
def sendRequestCmd (eng : Engine) (s : Session) (args : List String) : Result × Session :=
  match s.client.http2Conn with
  | none => (.error "please use connect cmd to connect to server", s)
  | some cc =>
    if !cc.CanTakeNewRequest then
      (.error "connection has been closed", { s with t := { s.t with Status := "" } })
    else
      match args with
      | [] => (.error "no methods", s)
      | arg0 :: rest =>
        if arg0 = "PING" then
          let r := eng.Ping cc
          let s1 : Session :=
            { s with
              client := { s.client with http2Conn := some r.2 }
              trace := s.trace ++ [.ping cc.stream] }
          match r.1 with
          | some err => (.error ("PING failed " ++ err), s1)
          | none => (.ok "send request success", s1)
        else if arg0 = "GET" then
          match rest with
          | [] => (.error "GET method must have a PATH", s)
          | arg1 :: _ =>
            let url := s.client.url.String ++ arg1
            if eng.NewRequest url then
              let r := eng.RoundTrip cc url
              let s1 : Session :=
                { s with
                  client := { s.client with http2Conn := some r.2 }
                  trace := s.trace ++ [.roundTrip cc.stream url] }
              match r.1 with
              | .error err => (.error ("send GET request failed " ++ err), s1)
              | .ok resp =>
                (.ok "send request success",
                  { s1 with
                    t := (s1.t.WriteInfoMessage
                        ("status sode: " ++ toString resp.1.StatusCode)).WriteInfoMessage
                      ("data: " ++ resp.2) })
            else (.fault, s)
        else (.error "Invalid method", s)

end H2c

/-! ## Specification vocabulary -/

namespace H2c

/-- The name the operator types for each setting: the key under which `settingsCmd` puts
the pointer in its map. -/
def Field.name : Field → String
  | .enablePush => "push"
  | .maxConcurrentStreams => "maxStream"
  | .initWindowSize => "windowSize"
  | .maxFrameSize => "frameSize"

/-- The token `name=value` for a recognised name and a number written in decimal. -/
def token (f : Field) (v : Nat) : String :=
  f.name ++ "=" ++ toString v

/-- The rest of a round of the `settingsCmd` loop once the token has passed the format
check, with `name` for `results[0]` and `value` for `results[1]` (lines 154-164). -/
def settingsCmd.apply (s : Session) (name value : String) : Except String Session :=
  match Atoi value with
  | none => .error ("Invalid value " ++ value)
  | some cfg =>
    match settingsCmd.m name with
    | none => .error ("Invalid setting option " ++ name)
    | some setting =>
      let r := applySetting cfg (setting.get s.client.settings)
      let client := { s.client with settings := setting.set s.client.settings r.2 }
      if r.1 then
        .ok { s with
              client := client
              t := s.t.WriteInfoMessage ("setting " ++ name ++ " was updated to " ++ value) }
      else .ok { s with client := client }

/-- The invalid-format error of `settingsCmd` for the token `v` (line 152). -/
def invalidFormat (v : String) : String :=
  "The cmd " ++ v ++ " is ivalid format(setting=value)"

/-- The settings after each pair of a list, in order, has stored its value in its setting. -/
def storeAll (st : settings) : List (Field × Nat) → settings
  | [] => st
  | p :: rest => storeAll (p.1.set st { p.1.get st with Val := p.2 }) rest

/-- A peer that accepts the dial as byte stream 1, answers the upgrade request with the
status code `status`, and on which the HTTP/2 engine starts a fresh connection. -/
def peer (status : Nat) : Net :=
  { Dial := fun _ => .ok 1
    ReadResponse := fun _ _ => some { StatusCode := status }
    NewClientConn := fun conn => .ok { stream := conn, closed := false, refusing := false } }

/-- A peer that accepts the dial as byte stream 1 and ends the stream before any response
can be read. -/
def silentPeer : Net :=
  { Dial := fun _ => .ok 1
    ReadResponse := fun _ _ => none
    NewClientConn := fun conn => .ok { stream := conn, closed := false, refusing := false } }

/-- A network on which no dial succeeds. -/
def noPeer : Net :=
  { Dial := fun _ => .error "connection refused"
    ReadResponse := fun _ _ => none
    NewClientConn := fun _ => .error "no stream" }

/-- The session after `connect example.test:8080` has succeeded from the initial session. -/
def establishedSession : Session :=
  (connectCmd (peer 101) initialSession ["example.test:8080"]).2

/-- What `connectCmd` does to the multiplexed connection held before it dials: a connection
that can take new requests is closed, and the handle stays as it is. -/
def closePrevious (c : Option ClientConn) : Option ClientConn :=
  c.map fun cc => if cc.CanTakeNewRequest then cc.Close else cc

/-- The upgrade request `connectCmd` sends for the address `host` with the settings `st`. -/
def upgradeRequest (host : String) (st : settings) : Request :=
  addH2cUpgrade { Method := "GET", URL := { Scheme := "http", Host := host }, Header := [] } st

/-- The tokens that pass the format check of `settingsCmd`: a name without `=`, one `=`,
a non-empty value without `=`, and then either nothing or another `=` with any text. -/
def passesFormat (v : String) : Prop :=
  ∃ a b r : List Char, v.data = a ++ '=' :: (b ++ r) ∧ '=' ∉ a ∧ '=' ∉ b ∧ b ≠ [] ∧
    (r = [] ∨ r.head? = some '=')

/-- The value of a character of the `base64.URLEncoding` alphabet, `none` for any other
character. -/
def decodeURL (c : Char) : Option Nat :=
  IndexByteString encodeURL c

/-- The decoder of `base64.RawURLEncoding` on the characters that are left once line breaks
are dropped: four characters give three bytes, a last group of two or three characters
gives one or two bytes, and a single last character or a character outside the alphabet is
an error. -/
def RawURLEncoding.decode : List Char → Option (List Nat)
  | c0 :: c1 :: c2 :: c3 :: rest =>
    match decodeURL c0, decodeURL c1, decodeURL c2, decodeURL c3, RawURLEncoding.decode rest with
    | some v0, some v1, some v2, some v3, some tail =>
      some ((v0 * 4 + v1 / 16) :: (v1 % 16 * 16 + v2 / 4) :: (v2 % 4 * 64 + v3) :: tail)
    | _, _, _, _, _ => none
  | [c0, c1, c2] =>
    match decodeURL c0, decodeURL c1, decodeURL c2 with
    | some v0, some v1, some v2 => some [v0 * 4 + v1 / 16, v1 % 16 * 16 + v2 / 4]
    | _, _, _ => none
  | [c0, c1] =>
    match decodeURL c0, decodeURL c1 with
    | some v0, some v1 => some [v0 * 4 + v1 / 16]
    | _, _ => none
  | [_] => none
  | [] => some []

/-- The method `base64.RawURLEncoding.DecodeString`, which skips `\r` and `\n`. -/
def RawURLEncoding.DecodeString (s : String) : Option (List Nat) :=
  RawURLEncoding.decode (s.data.filter fun c => c != '\r' && c != '\n')

/-- An engine on which every probe and every request succeeds, with status 200 and the
body `ok`, and which accepts every URL text. -/
def goodEngine : Engine :=
  { Ping := fun cc => (none, cc)
    NewRequest := fun _ => true
    RoundTrip := fun cc _ => (.ok ({ StatusCode := 200 }, "ok"), cc) }

/-- The events a command adds to those of the session it starts from. -/
def added (s : Session) (r : Result × Session) : List Event :=
  r.2.trace.drop s.trace.length

/-- The integer a signed decimal numeral denotes, whatever its size: an optional sign and
at least one decimal digit; `none` for any other text. -/
def decimalValue (value : String) : Option Int :=
  match value.data with
  | '-' :: ds => (parseUnsigned ds).map fun n : Nat => -(n : Int)
  | '+' :: ds => (parseUnsigned ds).map fun n : Nat => (n : Int)
  | ds => (parseUnsigned ds).map fun n : Nat => (n : Int)

/-- The session after the rounds of the `settingsCmd` loop for the tokens of a list, run one
after the other, each from the session the round before it left; a round that returns an
error leaves the session as it was. -/
def applyTokens (s : Session) (toks : List String) : Session :=
  toks.foldl
    (fun acc v =>
      match settingsCmd.body acc v with
      | .ok s1 => s1
      | .error _ => acc)
    s

/-- The message `settingsCmd` writes for the update of a setting to a number. -/
def updateMessage (p : Field × Nat) : String :=
  "setting " ++ p.1.name ++ " was updated to " ++ toString p.2

/-- The error `settingsCmd` returns for a token taken alone, `none` when it accepts it. -/
def rejected (v : String) : Option String :=
  match settingsCmd.body initialSession v with
  | .error e => some e
  | .ok _ => none

end H2c

/-! ## Theorems -/

namespace H2c

/-! ### Big-endian bytes -/

theorem putUint32_length (v : Nat) : (putUint32 v).length = 4 := rfl

theorem putUint32_lt (v : Nat) : ∀ b ∈ putUint32 v, b < 256 := by
  intro b hb
  simp only [putUint32, List.mem_cons, List.mem_singleton, List.not_mem_nil, or_false] at hb
  rcases hb with h | h | h | h <;> omega

theorem beValue_putUint32 (v : Nat) (h : v < 2 ^ 32) : beValue (putUint32 v) = v := by
  simp only [beValue, putUint32, List.foldl]
  norm_num at h ⊢
  omega

/-- C1: for every settings value with the identifiers of `newClient` and four 32-bit
values, `ToBytes` is 24 bytes long and consists of the groups `00 02 <push>`,
`00 03 <maxStream>`, `00 04 <windowSize>`, `00 05 <frameSize>` in this order, where each
`<value>` is four bytes (each below 256) that read big-endian give the stored value; for the
defaults of `newClient` the bytes are `00 02 00 00 00 00`, `00 03 00 00 00 FA`,
`00 04 00 00 FF FF`, `00 05 00 00 40 00`. -/
theorem ToBytes_layout (s : settings) (hid : s.ids = defaultSettings.ids)
    (hval : ∀ v ∈ s.vals, v < 2 ^ 32) :
    s.ToBytes.length = 24 ∧
    s.ToBytes =
      [0x00, 0x02] ++ putUint32 s.enablePush.Val ++
      ([0x00, 0x03] ++ putUint32 s.maxConcurrentStreams.Val) ++
      ([0x00, 0x04] ++ putUint32 s.initWindowSize.Val) ++
      ([0x00, 0x05] ++ putUint32 s.maxFrameSize.Val) ∧
    (∀ v ∈ s.vals,
      (putUint32 v).length = 4 ∧ (∀ b ∈ putUint32 v, b < 256) ∧ beValue (putUint32 v) = v) ∧
    beValue [0x00, 0x02] = 0x0002 ∧ beValue [0x00, 0x03] = 0x0003 ∧
    beValue [0x00, 0x04] = 0x0004 ∧ beValue [0x00, 0x05] = 0x0005 ∧
    newClient.settings.ToBytes =
      [0x00, 0x02, 0x00, 0x00, 0x00, 0x00, 0x00, 0x03, 0x00, 0x00, 0x00, 0xFA,
       0x00, 0x04, 0x00, 0x00, 0xFF, 0xFF, 0x00, 0x05, 0x00, 0x00, 0x40, 0x00] := by
  obtain ⟨⟨i1, v1⟩, ⟨i2, v2⟩, ⟨i3, v3⟩, ⟨i4, v4⟩⟩ := s
  simp only [settings.ids, defaultSettings, SettingEnablePush, SettingMaxConcurrentStreams,
    SettingInitialWindowSize, SettingMaxFrameSize, List.cons.injEq, and_true] at hid
  obtain ⟨rfl, rfl, rfl, rfl⟩ := hid
  refine ⟨rfl, ?_, ?_, rfl, rfl, rfl, rfl, by decide⟩
  · simp [settings.ToBytes, Setting.write, putUint16]
  intro v hv
  exact ⟨putUint32_length v, putUint32_lt v, beValue_putUint32 v (hval v hv)⟩

/-- C1 at the defaults of `newClient`. -/
theorem ToBytes_layout_witness :
    defaultSettings.ToBytes.length = 24 ∧
    defaultSettings.ToBytes =
      [0x00, 0x02] ++ putUint32 0 ++ ([0x00, 0x03] ++ putUint32 250) ++
      ([0x00, 0x04] ++ putUint32 65535) ++ ([0x00, 0x05] ++ putUint32 16384) :=
  have h := ToBytes_layout defaultSettings rfl (by decide)
  ⟨h.1, h.2.1⟩

end H2c

namespace H2c

/-! ### Splitting a token -/

theorem splitChars_no_sep (sep : Char) (cs : List Char) (h : sep ∉ cs) :
    splitChars sep cs = [cs] := by
  induction cs with
  | nil => rfl
  | cons c cs ih =>
    have hc : c ≠ sep := fun e => h (by simp [e])
    have hcs : sep ∉ cs := fun e => h (by simp [e])
    simp [splitChars, hc, ih hcs]

theorem splitChars_append (sep : Char) (a b : List Char) (h : sep ∉ a) :
    splitChars sep (a ++ sep :: b) = a :: splitChars sep b := by
  induction a with
  | nil => simp [splitChars]
  | cons c cs ih =>
    have hc : c ≠ sep := fun e => h (by simp [e])
    have hcs : sep ∉ cs := fun e => h (by simp [e])
    simp [splitChars, hc, ih hcs]

/-- Every sequence splits into its run before the first separator and, when there is a
separator, the pieces of what follows it. -/
theorem splitChars_shape (sep : Char) (cs : List Char) :
    (sep ∉ cs ∧ splitChars sep cs = [cs]) ∨
    ∃ a r, sep ∉ a ∧ cs = a ++ sep :: r ∧ splitChars sep cs = a :: splitChars sep r := by
  induction cs with
  | nil => left; exact ⟨by simp, rfl⟩
  | cons c cs ih =>
    by_cases hc : c = sep
    · right
      exact ⟨[], cs, by simp, by simp [hc], by simp [splitChars, hc]⟩
    · rcases ih with ⟨hno, _⟩ | ⟨a, r, ha, hcs, _⟩
      · left
        have : sep ∉ c :: cs := by
          simp only [List.mem_cons, not_or]
          exact ⟨fun e => hc e.symm, hno⟩
        exact ⟨this, splitChars_no_sep sep _ this⟩
      · right
        have hca : sep ∉ c :: a := by
          simp only [List.mem_cons, not_or]
          exact ⟨fun e => hc e.symm, ha⟩
        refine ⟨c :: a, r, hca, by simp [hcs], ?_⟩
        have := splitChars_append sep (c :: a) r hca
        simpa [hcs] using this

theorem body_short (s : Session) (v : String) (a : List Char)
    (h : splitChars '=' v.data = [a]) :
    settingsCmd.body s v = .error (invalidFormat v) := by
  simp [settingsCmd.body, Split, h, invalidFormat]

theorem body_empty_value (s : Session) (v : String) (a : List Char) (rest : List (List Char))
    (h : splitChars '=' v.data = a :: [] :: rest) :
    settingsCmd.body s v = .error (invalidFormat v) := by
  simp [settingsCmd.body, Split, h, invalidFormat]

theorem body_apply (s : Session) (v : String) (a b : List Char) (rest : List (List Char))
    (h : splitChars '=' v.data = a :: b :: rest) (hb : b ≠ []) :
    settingsCmd.body s v = settingsCmd.apply s (String.mk a) (String.mk b) := by
  have hb2 : String.mk b ≠ "" := by
    intro e
    apply hb
    simpa using congrArg String.data e
  simp [settingsCmd.body, Split, h, hb2, settingsCmd.apply]

end H2c

namespace H2c

/-! ### Decimal numerals -/

theorem digitChar_spec : ∀ k, k < 10 →
    (Nat.digitChar k).isDigit = true ∧ (Nat.digitChar k).toNat - '0'.toNat = k ∧
      Nat.digitChar k ≠ '=' := by
  decide

theorem parseDigits_append (a b : List Char) (acc : Nat) :
    parseDigits (a ++ b) acc = (parseDigits a acc).bind (parseDigits b) := by
  induction a generalizing acc with
  | nil => rfl
  | cons c cs ih =>
    simp only [List.cons_append, parseDigits]
    split
    · exact ih _
    · rfl

/-- The digits `Nat.toDigitsCore` puts in front of its accumulator: a non-empty run of
decimal digits that `parseDigits` reads back as the number. -/
theorem toDigitsCore_spec (fuel : Nat) : ∀ (n : Nat) (tail : List Char), n < fuel →
    ∃ ds : List Char, Nat.toDigitsCore 10 fuel n tail = ds ++ tail ∧ ds ≠ [] ∧
      (∀ c ∈ ds, c.isDigit = true ∧ c ≠ '=') ∧
      ∀ acc, parseDigits ds acc = some (acc * 10 ^ ds.length + n) := by
  induction fuel with
  | zero => intro n tail h; omega
  | succ fuel ih =>
    intro n tail hn
    have hd := digitChar_spec (n % 10) (Nat.mod_lt _ (by decide))
    simp only [Nat.toDigitsCore]
    by_cases h0 : n / 10 = 0
    · simp only [h0, if_true]
      refine ⟨[Nat.digitChar (n % 10)], rfl, by simp, ?_, ?_⟩
      · intro c hc
        simp only [List.mem_singleton] at hc
        subst hc
        exact ⟨hd.1, hd.2.2⟩
      · intro acc
        simp only [parseDigits, hd.1, if_true, hd.2.1, List.length_singleton, pow_one]
        congr 1
        omega
    · simp only [h0, if_false]
      obtain ⟨ds, hds, _, hdig, hval⟩ :=
        ih (n / 10) (Nat.digitChar (n % 10) :: tail) (by omega)
      refine ⟨ds ++ [Nat.digitChar (n % 10)], by simp [hds], by simp, ?_, ?_⟩
      · intro c hc
        simp only [List.mem_append, List.mem_singleton] at hc
        rcases hc with hc | hc
        · exact hdig c hc
        · subst hc
          exact ⟨hd.1, hd.2.2⟩
      · intro acc
        rw [parseDigits_append, hval]
        simp only [Option.some_bind, parseDigits, hd.1, if_true, hd.2.1, List.length_append,
          List.length_singleton]
        congr 1
        rw [pow_succ]
        have := Nat.div_add_mod n 10
        nlinarith [this]

/-- The decimal numeral of a number: non-empty, digits only, read back by `parseDigits`. -/
theorem toString_spec (n : Nat) :
    (toString n).data ≠ [] ∧ (∀ c ∈ (toString n).data, c.isDigit = true ∧ c ≠ '=') ∧
      parseDigits (toString n).data 0 = some n := by
  obtain ⟨ds, hds, hne, hdig, hval⟩ := toDigitsCore_spec (n + 1) n [] (by omega)
  have h : (toString n).data = ds := by
    show Nat.toDigitsCore 10 (n + 1) n [] = ds
    simpa using hds
  rw [h]
  exact ⟨hne, hdig, by simpa using hval 0⟩

theorem Atoi_digits (s : String) (hne : s.data ≠ [])
    (hdig : ∀ c ∈ s.data, c.isDigit = true) (n : Nat) (hn : parseDigits s.data 0 = some n) :
    Atoi s = if n < 2 ^ (intSize - 1) then some (n : Int) else none := by
  unfold Atoi
  split
  · rename_i ds h
    have := hdig '-' (by simp [h])
    exact absurd this (by decide)
  · rename_i ds h
    have := hdig '+' (by simp [h])
    exact absurd this (by decide)
  · simp [parseUnsigned, hne, hn]

theorem Atoi_toString (n : Nat) (h : n < 2 ^ 63) : Atoi (toString n) = some (n : Int) := by
  obtain ⟨hne, hdig, hval⟩ := toString_spec n
  rw [Atoi_digits (toString n) hne (fun c hc => (hdig c hc).1) n hval]
  have h2 : n < 2 ^ (intSize - 1) := h
  simp [h2]

end H2c

namespace H2c

/-! ### One token -/

theorem name_no_sep (f : Field) : '=' ∉ f.name.data := by
  cases f <;> decide

theorem m_name (f : Field) : settingsCmd.m f.name = some f := by
  cases f <;> decide

theorem body_name_value (s : Session) (f : Field) (value : String)
    (hne : value.data ≠ []) (hsep : '=' ∉ value.data) :
    settingsCmd.body s (f.name ++ "=" ++ value) = settingsCmd.apply s f.name value := by
  have h : splitChars '=' (f.name ++ "=" ++ value).data = [f.name.data, value.data] := by
    have : (f.name ++ "=" ++ value).data = f.name.data ++ '=' :: value.data := by
      simp [String.data_append]
    rw [this, splitChars_append _ _ _ (name_no_sep f), splitChars_no_sep _ _ hsep]
  exact body_apply s _ _ _ _ h hne

theorem body_token (s : Session) (f : Field) (v : Nat) (hv : v < 2 ^ 63) :
    settingsCmd.body s (f.name ++ "=" ++ toString v) =
      .ok (if 0 < v then
          { s with
            client :=
              { s.client with
                settings := f.set s.client.settings
                  { f.get s.client.settings with Val := v % 2 ^ 32 } }
            t := s.t.WriteInfoMessage
              ("setting " ++ f.name ++ " was updated to " ++ toString v) }
        else s) := by
  obtain ⟨hne, hdig, _⟩ := toString_spec v
  rw [body_name_value s f (toString v) hne (fun h => (hdig _ h).2 rfl)]
  simp only [settingsCmd.apply, Atoi_toString v hv, m_name, applySetting]
  by_cases h0 : 0 < v
  · have : ((v : Int) % 4294967296).toNat = v % 4294967296 := by
      have : ((v : Int) % 4294967296) = ((v % 4294967296 : Nat) : Int) := by norm_cast
      rw [this, Int.toNat_natCast]
    simp [h0, this]
  · have hz : v = 0 := by omega
    subst hz
    cases f <;> rfl

theorem settingsCmd_state (s : Session) (args : List String) :
    (settingsCmd s args).2.client = (settingsCmd.loop s args).2.client ∧
      (settingsCmd s args).2.t = (settingsCmd.loop s args).2.t := by
  unfold settingsCmd
  split
  · rename_i e s1 h
    simp [h]
  · rename_i s1 h
    simp only [h]
    split
    · exact ⟨rfl, rfl⟩
    · split
      · split <;> exact ⟨rfl, rfl⟩
      · exact ⟨rfl, rfl⟩

end H2c

namespace H2c

theorem get_set_same (f : Field) (s : settings) (x : Setting) : f.get (f.set s x) = x := by
  cases f <;> rfl

theorem get_set_other (f g : Field) (h : g ≠ f) (s : settings) (x : Setting) :
    g.get (f.set s x) = g.get s := by
  cases f <;> cases g <;> first | rfl | exact absurd rfl h

/-- C2: for each of the four names and every starting session, the settings command given
the single token `<name>=0` leaves the settings and the terminal output unchanged, so no
update is reported, and `applySetting` returns false; given `<name>=<v>` for a positive
`v` below `2 ^ 32` it stores `v` as the value of that setting (the identifier and the other
three settings are kept), reports `setting <name> was updated to <v>`, and `applySetting`
returns true. -/
theorem settingsCmd_single_token (s : Session) (f : Field) :
    ((settingsCmd s [f.name ++ "=0"]).2.client.settings = s.client.settings ∧
      (settingsCmd s [f.name ++ "=0"]).2.t = s.t ∧
      (applySetting 0 (f.get s.client.settings)).1 = false) ∧
    ∀ v : Nat, 0 < v → v < 2 ^ 32 →
      (f.get (settingsCmd s [f.name ++ "=" ++ toString v]).2.client.settings).Val = v ∧
      (f.get (settingsCmd s [f.name ++ "=" ++ toString v]).2.client.settings).ID =
        (f.get s.client.settings).ID ∧
      (∀ g, g ≠ f →
        g.get (settingsCmd s [f.name ++ "=" ++ toString v]).2.client.settings =
          g.get s.client.settings) ∧
      (settingsCmd s [f.name ++ "=" ++ toString v]).2.t.info =
        s.t.info ++ ["setting " ++ f.name ++ " was updated to " ++ toString v] ∧
      (settingsCmd s [f.name ++ "=" ++ toString v]).2.t.Status = s.t.Status ∧
      (applySetting v (f.get s.client.settings)).1 = true := by
  constructor
  · have hb := body_token s f 0 (by norm_num)
    have h0 : f.name ++ "=" ++ toString 0 = f.name ++ "=0" := by cases f <;> decide
    rw [h0] at hb
    have hl : settingsCmd.loop s [f.name ++ "=0"] = (none, s) := by
      simp [settingsCmd.loop, hb]
    have hs := settingsCmd_state s [f.name ++ "=0"]
    rw [hl] at hs
    exact ⟨by rw [hs.1], hs.2, by simp [applySetting]⟩
  · intro v hpos hlt
    have hb := body_token s f v (by omega)
    have hs := settingsCmd_state s [f.name ++ "=" ++ toString v]
    simp only [settingsCmd.loop, hb, hpos, if_true] at hs
    have hmod : v % 2 ^ 32 = v := Nat.mod_eq_of_lt hlt
    rw [hs.1, hs.2]
    refine ⟨?_, ?_, ?_, ?_, ?_, ?_⟩
    · rw [get_set_same]
      exact hmod
    · rw [get_set_same]
    · intro g hg
      simp [get_set_other f g hg]
    · rfl
    · rfl
    · have : (0 : Int) < (v : Int) := by exact_mod_cast hpos
      simp [applySetting, this]

/-- C2 at the defaults: `push=123`. -/
theorem settingsCmd_single_token_witness :
    (Field.enablePush.get
        (settingsCmd initialSession ["push" ++ "=" ++ toString 123]).2.client.settings).Val
      = 123 :=
  ((settingsCmd_single_token initialSession .enablePush).2 123 (by decide) (by decide)).1

end H2c

namespace H2c

/-! ### The token loop -/

theorem apply_error_indep (s s1 : Session) (name value e : String)
    (h : settingsCmd.apply s name value = .error e) :
    settingsCmd.apply s1 name value = .error e := by
  unfold settingsCmd.apply at h ⊢
  cases hA : Atoi value with
  | none => simpa [hA] using h
  | some cfg =>
    cases hm : settingsCmd.m name with
    | none => simpa [hA, hm] using h
    | some setting =>
      simp only [hA, hm] at h
      split at h <;> cases h

theorem body_error_indep (s s1 : Session) (v e : String)
    (h : settingsCmd.body s v = .error e) : settingsCmd.body s1 v = .error e := by
  rcases hsp : splitChars '=' v.data with _ | ⟨a, _ | ⟨b, rest⟩⟩
  · have hx : ∀ x : Session, settingsCmd.body x v = .error (invalidFormat v) := by
      intro x
      simp [settingsCmd.body, Split, hsp, invalidFormat]
    rw [hx] at h ⊢
    exact h
  · rw [body_short _ v a hsp] at h ⊢
    exact h
  · by_cases hb : b = []
    · subst hb
      rw [body_empty_value _ v a rest hsp] at h ⊢
      exact h
    · rw [body_apply _ v a b rest hsp hb] at h ⊢
      exact apply_error_indep s s1 _ _ e h

theorem body_of_rejected (s : Session) (v e : String) (h : rejected v = some e) :
    settingsCmd.body s v = .error e := by
  unfold rejected at h
  cases hb : settingsCmd.body initialSession v with
  | error e1 =>
    simp only [hb, Option.some.injEq] at h
    subst h
    exact body_error_indep _ _ _ _ hb
  | ok s1 => simp [hb] at h

theorem body_of_accepted (s : Session) (v : String) (h : rejected v = none) :
    ∃ s1, settingsCmd.body s v = .ok s1 := by
  cases hb : settingsCmd.body s v with
  | error e =>
    have := body_error_indep s initialSession v e hb
    simp [rejected, this] at h
  | ok s1 => exact ⟨s1, rfl⟩

theorem loop_append_rejected (pre : List String) :
    ∀ (s : Session) (bad : String) (post : List String) (e : String),
      (∀ v ∈ pre, rejected v = none) → rejected bad = some e →
      (settingsCmd.loop s pre).1 = none ∧
        settingsCmd.loop s (pre ++ bad :: post) = (some e, (settingsCmd.loop s pre).2) := by
  induction pre with
  | nil =>
    intro s bad post e _ hbad
    simp [settingsCmd.loop, body_of_rejected s bad e hbad]
  | cons v pre ih =>
    intro s bad post e hpre hbad
    obtain ⟨s1, hs1⟩ := body_of_accepted s v (hpre v (by simp))
    have := ih s1 bad post e (fun u hu => hpre u (by simp [hu])) hbad
    simpa [settingsCmd.loop, hs1] using this

theorem first_rejected_split (args : List String) (h : ∃ v ∈ args, rejected v ≠ none) :
    ∃ pre bad post e, args = pre ++ bad :: post ∧ (∀ v ∈ pre, rejected v = none) ∧
      rejected bad = some e := by
  induction args with
  | nil => simp at h
  | cons a args ih =>
    cases ha : rejected a with
    | some e => exact ⟨[], a, args, e, rfl, by simp, ha⟩
    | none =>
      obtain ⟨v, hv, hrej⟩ := h
      have hv2 : v ∈ args := by
        rcases List.mem_cons.mp hv with rfl | hv
        · exact absurd ha hrej
        · exact hv
      obtain ⟨pre, bad, post, e, hsplit, hpre, hbad⟩ := ih ⟨v, hv2, hrej⟩
      refine ⟨a :: pre, bad, post, e, by simp [hsplit], ?_, hbad⟩
      intro u hu
      rcases List.mem_cons.mp hu with rfl | hu
      · exact ha
      · exact hpre u hu

end H2c

namespace H2c

/-! ### A list of accepted tokens -/

theorem storeAll_unnamed (f : Field) (toks : List (Field × Nat)) :
    ∀ st : settings, (∀ p ∈ toks, p.1 ≠ f) → f.get (storeAll st toks) = f.get st := by
  induction toks with
  | nil => intro st _; rfl
  | cons p rest ih =>
    intro st h
    rw [storeAll, ih _ (fun q hq => h q (by simp [hq]))]
    exact get_set_other p.1 f (fun e => h p (by simp) e.symm) _ _

theorem storeAll_ID (f : Field) (toks : List (Field × Nat)) :
    ∀ st : settings, (f.get (storeAll st toks)).ID = (f.get st).ID := by
  induction toks with
  | nil => intro st; rfl
  | cons p rest ih =>
    intro st
    rw [storeAll, ih]
    by_cases e : f = p.1
    · subst e
      rw [get_set_same]
    · rw [get_set_other p.1 f e]

theorem storeAll_append (a b : List (Field × Nat)) :
    ∀ st : settings, storeAll st (a ++ b) = storeAll (storeAll st a) b := by
  induction a with
  | nil => intro st; rfl
  | cons p rest ih =>
    intro st
    rw [List.cons_append, storeAll, storeAll, ih]

theorem storeAll_last (f : Field) (v : Nat) (pre post : List (Field × Nat)) (st : settings)
    (h : ∀ p ∈ post, p.1 ≠ f) : (f.get (storeAll st (pre ++ (f, v) :: post))).Val = v := by
  rw [storeAll_append, storeAll, storeAll_unnamed f post _ h, get_set_same]

theorem loop_tokens (toks : List (Field × Nat)) :
    ∀ s : Session, (∀ p ∈ toks, 0 < p.2 ∧ p.2 < 2 ^ 32) →
      (settingsCmd.loop s (toks.map fun p => token p.1 p.2)).1 = none ∧
      (settingsCmd.loop s (toks.map fun p => token p.1 p.2)).2.client.settings =
        storeAll s.client.settings toks ∧
      (settingsCmd.loop s (toks.map fun p => token p.1 p.2)).2.client.http2Conn =
        s.client.http2Conn := by
  induction toks with
  | nil => intro s _; exact ⟨rfl, rfl, rfl⟩
  | cons p rest ih =>
    intro s h
    obtain ⟨hpos, hlt⟩ := h p (by simp)
    have hb := body_token s p.1 p.2 (by omega)
    simp only [hpos, if_true, Nat.mod_eq_of_lt hlt] at hb
    simp only [List.map_cons, settingsCmd.loop, token, hb]
    exact ih _ (fun q hq => h q (by simp [hq]))

theorem loop_applyTokens (pre : List String) :
    ∀ s : Session, (∀ v ∈ pre, rejected v = none) →
      (settingsCmd.loop s pre).2 = applyTokens s pre := by
  induction pre with
  | nil => intro s _; rfl
  | cons v rest ih =>
    intro s h
    obtain ⟨s1, hs1⟩ := body_of_accepted s v (h v (by simp))
    have := ih s1 (fun u hu => h u (by simp [hu]))
    simpa [settingsCmd.loop, applyTokens, hs1] using this

theorem token_accepted (p : Field × Nat) (h : p.2 < 2 ^ 32) :
    rejected (token p.1 p.2) = none := by
  have hb := body_token initialSession p.1 p.2 (by omega)
  simp [rejected, token, hb]

theorem loop_tokens_info (toks : List (Field × Nat)) :
    ∀ s : Session, (∀ p ∈ toks, 0 < p.2 ∧ p.2 < 2 ^ 32) →
      (settingsCmd.loop s (toks.map fun p => token p.1 p.2)).2.t.info =
        s.t.info ++ toks.map updateMessage ∧
      (settingsCmd.loop s (toks.map fun p => token p.1 p.2)).2.t.Status = s.t.Status := by
  induction toks with
  | nil => intro s _; simp [settingsCmd.loop]
  | cons p rest ih =>
    intro s h
    obtain ⟨hpos, hlt⟩ := h p (by simp)
    have hb := body_token s p.1 p.2 (by omega)
    simp only [hpos, if_true] at hb
    simp only [List.map_cons, settingsCmd.loop, token, hb]
    obtain ⟨h1, h2⟩ := ih _ (fun q hq => h q (by simp [hq]))
    simp only [token] at h1 h2
    rw [h1, h2]
    simp [Terminal.WriteInfoMessage, updateMessage]

/-- C3: for every starting session and every token list in which some token is rejected,
the list splits at its first rejected token into `pre`, `bad` and `post`; the settings
command returns the error of `bad` together with the session that the rounds for the
tokens of `pre`, run one after the other, leave: every update made before `bad` is kept
and no token of `post` has any effect.  It is also the client and the terminal that the
command leaves when given `pre` alone.  When the tokens before `bad` are `name=value`
tokens with recognised names and values `0 < v < 2 ^ 32`, the settings afterwards hold, for
every setting, the value of the last of these tokens naming it and otherwise the previous
value, and the terminal has received one update message for each of them, in order.  From
the defaults, `push=123 maxStream` returns the invalid-format error for `maxStream` and
leaves push at 123, and `push=1 maxStream=7 frameSize=9 bogus` returns the error for
`bogus` and leaves the values 1, 7, 65535, 9. -/
theorem settingsCmd_first_rejected (s : Session) (args : List String)
    (h : ∃ v ∈ args, rejected v ≠ none) :
    (∃ pre bad post e, args = pre ++ bad :: post ∧ (∀ v ∈ pre, rejected v = none) ∧
      rejected bad = some e ∧
      settingsCmd s args = (.error e, applyTokens s pre) ∧
      (settingsCmd.loop s pre).1 = none ∧
      (settingsCmd s args).2.client = (settingsCmd s pre).2.client ∧
      (settingsCmd s args).2.t = (settingsCmd s pre).2.t) ∧
    (∀ (toks : List (Field × Nat)) (bad : String) (post : List String) (e : String),
      args = (toks.map fun p => token p.1 p.2) ++ bad :: post →
      (∀ p ∈ toks, 0 < p.2 ∧ p.2 < 2 ^ 32) → rejected bad = some e →
      (settingsCmd s args).1 = .error e ∧
      (settingsCmd s args).2.client.settings = storeAll s.client.settings toks ∧
      (∀ f : Field, (∀ p ∈ toks, p.1 ≠ f) →
        f.get (settingsCmd s args).2.client.settings = f.get s.client.settings) ∧
      (∀ (f : Field) (v : Nat) (pre1 post1 : List (Field × Nat)),
        toks = pre1 ++ (f, v) :: post1 → (∀ p ∈ post1, p.1 ≠ f) →
        (f.get (settingsCmd s args).2.client.settings).Val = v) ∧
      (settingsCmd s args).2.t.info = s.t.info ++ toks.map updateMessage ∧
      (settingsCmd s args).2.t.Status = s.t.Status) ∧
    settingsCmd initialSession ["push=123", "maxStream"] =
      (.error "The cmd maxStream is ivalid format(setting=value)",
        { initialSession with
          client :=
            { initialSession.client with
              settings := { defaultSettings with enablePush := { ID := 2, Val := 123 } } }
          t := { Status := "", info := ["setting push was updated to 123"] } }) ∧
    (settingsCmd initialSession ["push=1", "maxStream=7", "frameSize=9", "bogus"]).1 =
      .error "The cmd bogus is ivalid format(setting=value)" ∧
    (settingsCmd initialSession
        ["push=1", "maxStream=7", "frameSize=9", "bogus"]).2.client.settings.vals =
      [1, 7, 65535, 9] ∧
    (settingsCmd initialSession ["push=1", "maxStream=7", "frameSize=9", "bogus"]).2.t.info =
      ["setting push was updated to 1", "setting maxStream was updated to 7",
        "setting frameSize was updated to 9"] := by
  refine ⟨?_, ?_, by decide, by decide, by decide, by decide⟩
  · obtain ⟨pre, bad, post, e, hsplit, hpre, hbad⟩ := first_rejected_split args h
    obtain ⟨hnone, hloop⟩ := loop_append_rejected pre s bad post e hpre hbad
    refine ⟨pre, bad, post, e, hsplit, hpre, hbad, ?_, hnone, ?_, ?_⟩
    · rw [hsplit]
      simp [settingsCmd, hloop, loop_applyTokens pre s hpre]
    · rw [(settingsCmd_state s args).1, (settingsCmd_state s pre).1, hsplit, hloop]
    · rw [(settingsCmd_state s args).2, (settingsCmd_state s pre).2, hsplit, hloop]
  · intro toks bad post e hsplit hval hbad
    have hpre : ∀ v ∈ toks.map (fun p => token p.1 p.2), rejected v = none := by
      intro v hv
      obtain ⟨p, hp, rfl⟩ := List.mem_map.mp hv
      exact token_accepted p (hval p hp).2
    obtain ⟨_, hloop⟩ := loop_append_rejected _ s bad post e hpre hbad
    obtain ⟨_, hset, _⟩ := loop_tokens toks s hval
    obtain ⟨hinfo, hstatus⟩ := loop_tokens_info toks s hval
    have hres : settingsCmd s args =
        (.error e, (settingsCmd.loop s (toks.map fun p => token p.1 p.2)).2) := by
      rw [hsplit]
      simp [settingsCmd, hloop]
    rw [hres]
    refine ⟨rfl, hset, ?_, ?_, hinfo, hstatus⟩
    · intro f hf
      simp only [hset]
      exact storeAll_unnamed f toks _ hf
    · intro f v pre1 post1 ht hpost
      simp only [hset]
      rw [ht]
      exact storeAll_last f v pre1 post1 _ hpost

/-- C3 at the defaults with `push=123 maxStream`. -/
theorem settingsCmd_first_rejected_witness :
    (settingsCmd initialSession ["push=123", "maxStream"]).1 =
        .error "The cmd maxStream is ivalid format(setting=value)" ∧
      (settingsCmd initialSession ["push=123", "maxStream"]).2.client.settings =
        storeAll initialSession.client.settings [(Field.enablePush, 123)] ∧
      (Field.enablePush.get
        (settingsCmd initialSession ["push=123", "maxStream"]).2.client.settings).Val = 123 :=
  have h := (settingsCmd_first_rejected initialSession ["push=123", "maxStream"]
    ⟨"maxStream", by decide, by decide⟩).2.1 [(Field.enablePush, 123)] "maxStream" []
      "The cmd maxStream is ivalid format(setting=value)" (by decide) (by decide) (by decide)
  ⟨h.1, h.2.1, h.2.2.2.1 .enablePush 123 [] [] rfl (by simp)⟩

/-- C4: for every starting session without a multiplexed connection and every list
(possibly empty) of tokens `name=value` with a recognised name and a value `v` with
`0 < v < 2 ^ 32`, the settings command succeeds and returns
`Enable Push: <b> | Max Concurrent Streams: <m> | Init Window Size: <w> | Max Frame Size: <f>`
for the settings it leaves, where `b` is true exactly when the push value is positive; in
those settings a setting no token names keeps its previous value, a setting that is named
holds the value of the last token naming it, and every identifier is kept.  From the
defaults, `push=123 maxStream=2345` gives push 123 (shown as true), maxStream 2345,
windowSize 65535 and frameSize 16384, and the empty list succeeds and changes nothing. -/
theorem settingsCmd_accepted_list (s : Session) (toks : List (Field × Nat))
    (hconn : s.client.http2Conn = none) (hval : ∀ p ∈ toks, 0 < p.2 ∧ p.2 < 2 ^ 32) :
    (∃ final : settings,
      (settingsCmd s (toks.map fun p => token p.1 p.2)).2.client.settings = final ∧
      (settingsCmd s (toks.map fun p => token p.1 p.2)).1 =
        .ok ("Enable Push: " ++ toString (decide (0 < final.enablePush.Val))
          ++ " | Max Concurrent Streams: " ++ toString final.maxConcurrentStreams.Val
          ++ " | Init Window Size: " ++ toString final.initWindowSize.Val
          ++ " | Max Frame Size: " ++ toString final.maxFrameSize.Val) ∧
      (∀ f : Field, (∀ p ∈ toks, p.1 ≠ f) → f.get final = f.get s.client.settings) ∧
      (∀ (f : Field) (v : Nat) (pre post : List (Field × Nat)),
        toks = pre ++ (f, v) :: post → (∀ p ∈ post, p.1 ≠ f) → (f.get final).Val = v) ∧
      (∀ f : Field, (f.get final).ID = (f.get s.client.settings).ID)) ∧
    settingsCmd initialSession ["push=123", "maxStream=2345"] =
      (.ok ("Enable Push: true | Max Concurrent Streams: 2345 | Init Window Size: 65535"
          ++ " | Max Frame Size: 16384"),
        { initialSession with
          client :=
            { initialSession.client with
              settings :=
                { enablePush := { ID := 2, Val := 123 }
                  maxConcurrentStreams := { ID := 3, Val := 2345 }
                  initWindowSize := { ID := 4, Val := 65535 }
                  maxFrameSize := { ID := 5, Val := 16384 } } }
          t :=
            { Status := ""
              info := ["setting push was updated to 123",
                "setting maxStream was updated to 2345"] } }) ∧
    settingsCmd initialSession [] =
      (.ok ("Enable Push: false | Max Concurrent Streams: 250 | Init Window Size: 65535"
          ++ " | Max Frame Size: 16384"), initialSession) := by
  refine ⟨?_, by decide, by decide⟩
  obtain ⟨hnone, hset, hc⟩ := loop_tokens toks s hval
  have hst := (settingsCmd_state s (toks.map fun p => token p.1 p.2)).1
  refine ⟨storeAll s.client.settings toks, ?_, ?_, ?_, ?_, ?_⟩
  · rw [hst, hset]
  · rw [← hset]
    generalize hL : settingsCmd.loop s (toks.map fun p => token p.1 p.2) = L at hnone hc
    obtain ⟨r, s1⟩ := L
    simp only at hnone hc
    subst hnone
    simp only [settingsCmd, hL, hc, hconn, settingsCmd.updated]
  · intro f h
    exact storeAll_unnamed f toks _ h
  · intro f v pre post hsplit h
    rw [hsplit]
    exact storeAll_last f v pre post _ h
  · intro f
    exact storeAll_ID f toks _

/-- C4 at the defaults with `push=123 maxStream=2345`. -/
theorem settingsCmd_accepted_list_witness :
    ∃ final : settings,
      (settingsCmd initialSession
        ([(Field.enablePush, 123), (Field.maxConcurrentStreams, 2345)].map
          fun p => token p.1 p.2)).2.client.settings = final ∧
      final.vals = [123, 2345, 65535, 16384] := by
  obtain ⟨final, h1, _, _, _, _⟩ :=
    (settingsCmd_accepted_list initialSession
      [(Field.enablePush, 123), (Field.maxConcurrentStreams, 2345)] rfl (by decide)).1
  exact ⟨final, h1, by rw [← h1]; decide⟩

end H2c

namespace H2c

/-! ### The `close` command -/

/-- C5, as stated, fails: after `connect example.test:8080` has succeeded, the first close
succeeds and the second close, issued right after it, succeeds again instead of failing
with "no connection"; the handle is still held. -/
theorem closeCmd_twice_counterexample :
    establishedSession.client.http2Conn ≠ none ∧
    (closeCmd establishedSession []).1 = .ok "connetion closed" ∧
    (closeCmd (closeCmd establishedSession []).2 []).1 = .ok "connetion closed" ∧
    (closeCmd (closeCmd establishedSession []).2 []).1 ≠ .error "no connection" ∧
    (closeCmd establishedSession []).2.client.http2Conn ≠ none := by
  decide

/-- C5, amended: for every session that holds a multiplexed connection and whose client
has the terminal stored in it, the first close succeeds, calls `Close` on the connection
and clears the status text; the handle stays in the client, so a second close issued right
afterwards succeeds in the same way.  Close fails with "no connection" exactly when the
client holds no multiplexed-connection handle, as it does from the initial session. -/
theorem closeCmd_twice (s : Session) (cc : ClientConn) (args args2 : List String)
    (hcc : s.client.http2Conn = some cc) (hterm : s.client.term = true) :
    (closeCmd s args).1 = .ok "connetion closed" ∧
    (closeCmd s args).2.t.Status = "" ∧
    (closeCmd s args).2.client.http2Conn = some cc.Close ∧
    (closeCmd s args).2.trace = s.trace ++ [.close cc.stream] ∧
    (closeCmd (closeCmd s args).2 args2).1 = .ok "connetion closed" ∧
    (closeCmd (closeCmd s args).2 args2).2.t.Status = "" ∧
    (closeCmd (closeCmd s args).2 args2).2.client.http2Conn = some cc.Close ∧
    (∀ (s1 : Session) (args1 : List String),
      (closeCmd s1 args1).1 = .error "no connection" ↔ s1.client.http2Conn = none) ∧
    closeCmd initialSession args = (.error "no connection", initialSession) := by
  refine ⟨?_, ?_, ?_, ?_, ?_, ?_, ?_, ?_, rfl⟩
  · simp [closeCmd, hcc, hterm]
  · simp [closeCmd, hcc, hterm]
  · simp [closeCmd, hcc, hterm]
  · simp [closeCmd, hcc, hterm]
  · simp [closeCmd, hcc, hterm]
  · simp [closeCmd, hcc, hterm]
  · simp [closeCmd, hcc, hterm, ClientConn.Close]
  · intro s1 args1
    unfold closeCmd
    cases h : s1.client.http2Conn with
    | none => simp
    | some c =>
      simp only [reduceCtorEq, iff_false]
      split <;> simp

/-- C5, amended, at the session left by a successful `connect example.test:8080`. -/
theorem closeCmd_twice_witness :
    (closeCmd establishedSession []).1 = .ok "connetion closed" ∧
    (closeCmd establishedSession []).2.t.Status = "" ∧
    (closeCmd (closeCmd establishedSession []).2 []).1 = .ok "connetion closed" :=
  have h := closeCmd_twice establishedSession
    { stream := 1, closed := false, refusing := false } [] [] (by decide) (by decide)
  ⟨h.1, h.2.1, h.2.2.2.2.1⟩

/-! ### The `connect` command -/

theorem connectCmd_dialed (net : Net) (s : Session) (arg0 : String) (rest : List String)
    (conn : Nat) (h : net.Dial (connectCmd.host arg0) = .ok conn) :
    connectCmd net s (arg0 :: rest) =
      match net.ReadResponse conn (upgradeRequest (connectCmd.host arg0) s.client.settings) with
      | none =>
        (.fault,
          { client :=
              { s.client with
                conn := some conn
                http2Conn := closePrevious s.client.http2Conn
                url := { Scheme := "http", Host := connectCmd.host arg0 } }
            t := s.t
            trace := s.trace ++
              ((match s.client.http2Conn with
                | some cc => if cc.CanTakeNewRequest then [Event.close cc.stream] else []
                | none => []) ++
              [.dial (connectCmd.host arg0),
                .writeRequest conn
                  (upgradeRequest (connectCmd.host arg0) s.client.settings)]) })
      | some resp =>
        if resp.StatusCode ≠ 101 then
          (.error "The server does not support h2c",
            { client :=
                { s.client with
                  conn := some conn
                  http2Conn := closePrevious s.client.http2Conn
                  url := { Scheme := "http", Host := connectCmd.host arg0 } }
              t := s.t
              trace := s.trace ++
                ((match s.client.http2Conn with
                  | some cc => if cc.CanTakeNewRequest then [Event.close cc.stream] else []
                  | none => []) ++
                [.dial (connectCmd.host arg0),
                  .writeRequest conn
                    (upgradeRequest (connectCmd.host arg0) s.client.settings)]) })
        else
          match net.NewClientConn conn with
          | .error err =>
            (.error ("init HTTP/2 connection failed " ++ err),
              { client :=
                  { s.client with
                    conn := some conn
                    http2Conn := none
                    url := { Scheme := "http", Host := connectCmd.host arg0 } }
                t := s.t
                trace := s.trace ++
                  ((match s.client.http2Conn with
                    | some cc => if cc.CanTakeNewRequest then [Event.close cc.stream] else []
                    | none => []) ++
                  [.dial (connectCmd.host arg0),
                    .writeRequest conn
                      (upgradeRequest (connectCmd.host arg0) s.client.settings),
                    .newClientConn conn]) })
          | .ok cc1 =>
            (.ok "create a connection to server",
              { client :=
                  { s.client with
                    conn := some conn
                    http2Conn := some cc1
                    url := { Scheme := "http", Host := connectCmd.host arg0 } }
                t := { s.t with Status := "connected to " ++ connectCmd.host arg0 }
                trace := s.trace ++
                  ((match s.client.http2Conn with
                    | some cc => if cc.CanTakeNewRequest then [Event.close cc.stream] else []
                    | none => []) ++
                  [.dial (connectCmd.host arg0),
                    .writeRequest conn
                      (upgradeRequest (connectCmd.host arg0) s.client.settings),
                    .newClientConn conn]) }) := by
  cases hr : net.ReadResponse conn (upgradeRequest (connectCmd.host arg0) s.client.settings) with
  | none =>
    simp only [upgradeRequest] at hr
    obtain ⟨⟨c0, h2, st, u, tm⟩, t, trace⟩ := s
    rcases h2 with _ | cc
    · simp [connectCmd, h, H2cClient.sendUpgradeRequest, closePrevious, upgradeRequest, hr]
    · by_cases hc : cc.CanTakeNewRequest = true <;>
        simp [connectCmd, h, H2cClient.sendUpgradeRequest, closePrevious, upgradeRequest, hr, hc]
  | some resp =>
    simp only [upgradeRequest] at hr
    obtain ⟨⟨c0, h2, st, u, tm⟩, t, trace⟩ := s
    by_cases h101 : resp.StatusCode = 101
    · cases he : net.NewClientConn conn with
      | error err =>
        rcases h2 with _ | cc
        · simp [connectCmd, h, H2cClient.sendUpgradeRequest, closePrevious, upgradeRequest, hr,
            h101, he]
        · by_cases hc : cc.CanTakeNewRequest = true <;>
            simp [connectCmd, h, H2cClient.sendUpgradeRequest, closePrevious, upgradeRequest,
              hr, hc, h101, he]
      | ok cc1 =>
        rcases h2 with _ | cc
        · simp [connectCmd, h, H2cClient.sendUpgradeRequest, closePrevious, upgradeRequest, hr,
            h101, he]
        · by_cases hc : cc.CanTakeNewRequest = true <;>
            simp [connectCmd, h, H2cClient.sendUpgradeRequest, closePrevious, upgradeRequest,
              hr, hc, h101, he]
    · rcases h2 with _ | cc
      · simp [connectCmd, h, H2cClient.sendUpgradeRequest, closePrevious, upgradeRequest, hr,
          h101]
      · by_cases hc : cc.CanTakeNewRequest = true <;>
          simp [connectCmd, h, H2cClient.sendUpgradeRequest, closePrevious, upgradeRequest, hr,
            hc, h101]

end H2c

namespace H2c

theorem connectCmd_dial_failed (net : Net) (s : Session) (arg0 : String) (rest : List String)
    (err : String) (h : net.Dial (connectCmd.host arg0) = .error err) :
    connectCmd net s (arg0 :: rest) =
      (.error ("dial to server [" ++ connectCmd.host arg0 ++ "] failed " ++ err),
        { client := { s.client with http2Conn := closePrevious s.client.http2Conn }
          t := s.t
          trace := s.trace ++
            ((match s.client.http2Conn with
              | some cc => if cc.CanTakeNewRequest then [Event.close cc.stream] else []
              | none => []) ++
            [.dial (connectCmd.host arg0)]) }) := by
  obtain ⟨⟨c0, h2, st, u, tm⟩, t, trace⟩ := s
  rcases h2 with _ | cc
  · simp [connectCmd, h, closePrevious]
  · by_cases hc : cc.CanTakeNewRequest = true <;> simp [connectCmd, h, closePrevious, hc]

/-- C6, what the code does: when the dial succeeds and no upgrade response can be read,
`connectCmd` dereferences the nil response and faults; it returns no error to its caller. -/
theorem connectCmd_absent_response (net : Net) (s : Session) (arg0 : String)
    (rest : List String) (conn : Nat) (hd : net.Dial (connectCmd.host arg0) = .ok conn)
    (hr : net.ReadResponse conn (upgradeRequest (connectCmd.host arg0) s.client.settings)
      = none) :
    (connectCmd net s (arg0 :: rest)).1 = .fault ∧
      ∀ e, (connectCmd net s (arg0 :: rest)).1 ≠ .error e := by
  rw [connectCmd_dialed net s arg0 rest conn hd, hr]
  exact ⟨rfl, fun e h => by cases h⟩

/-- C6 at `connect example.test:8080` against a peer that ends the stream before answering. -/
theorem connectCmd_absent_response_witness :
    (connectCmd silentPeer initialSession ["example.test:8080"]).1 = .fault ∧
      ∀ e, (connectCmd silentPeer initialSession ["example.test:8080"]).1 ≠ .error e :=
  connectCmd_absent_response silentPeer initialSession "example.test:8080" [] 1 rfl rfl

theorem IndexByteString_none (cs : List Char) (c : Char) (h : c ∉ cs) :
    IndexByteString cs c = none := by
  induction cs with
  | nil => rfl
  | cons x xs ih =>
    have hx : x ≠ c := fun e => h (by simp [e])
    have hxs : c ∉ xs := fun e => h (by simp [e])
    simp [IndexByteString, hx, ih hxs]

/-- C7, what the code does: for every target without a colon, so with no port,
`net.SplitHostPort` fails and returns the empty host, and the address `connectCmd` dials
and uses as URL host is `:80`, whatever host was supplied. -/
theorem connectCmd_host_without_port (target : String) (h : ':' ∉ target.data) :
    SplitHostPort target = ("", "", some "missing port in address") ∧
      connectCmd.host target = ":80" := by
  have hl : last target.data ':' = none := by
    unfold last
    rw [IndexByteString_none _ _ (by simpa using h)]
    rfl
  have hs : SplitHostPort target = ("", "", some "missing port in address") := by
    simp [SplitHostPort, hl]
  refine ⟨hs, ?_⟩
  simp only [connectCmd.host, hs, Option.isSome_some, if_true]
  decide

/-- C7 at `connect example.test`: the address dialed, the URL host and the status text
carry `:80`, not `example.test:80`. -/
theorem connectCmd_host_without_port_witness :
    connectCmd.host "example.test" = ":80" ∧
    connectCmd.host "example.test" ≠ "example.test:80" ∧
    (connectCmd (peer 101) initialSession ["example.test"]).2.trace.head? =
      some (.dial ":80") ∧
    (connectCmd (peer 101) initialSession ["example.test"]).2.client.url.Host = ":80" ∧
    (connectCmd (peer 101) initialSession ["example.test"]).2.t.Status = "connected to :80" ∧
    connectCmd.host "example.test:8080" = "example.test:8080" :=
  ⟨(connectCmd_host_without_port "example.test" (by decide)).2, by decide, by decide,
    by decide, by decide, by decide⟩

/-- C8: for every connect command whose dial succeeds and whose upgrade response is read
with status code `resp.StatusCode`: the byte stream is handed to the HTTP/2 engine (a
`NewClientConn` event among the events of this command) if and only if the code is 101.
For any other code connect returns "The server does not support h2c", the
multiplexed-connection handle is the one held before (closed, if it was usable) and the
terminal with its status text is untouched; for 101 with an engine that initialises,
connect stores the new connection, sets the status text to `connected to <host:port>` and
returns success. -/
theorem connectCmd_upgrade (net : Net) (s : Session) (arg0 : String) (rest : List String)
    (conn : Nat) (resp : Response) (hd : net.Dial (connectCmd.host arg0) = .ok conn)
    (hr : net.ReadResponse conn (upgradeRequest (connectCmd.host arg0) s.client.settings)
      = some resp) :
    ((∃ k, Event.newClientConn k ∈
        (connectCmd net s (arg0 :: rest)).2.trace.drop s.trace.length) ↔
      resp.StatusCode = 101) ∧
    (resp.StatusCode ≠ 101 →
      (connectCmd net s (arg0 :: rest)).1 = .error "The server does not support h2c" ∧
      (connectCmd net s (arg0 :: rest)).2.client.http2Conn =
        closePrevious s.client.http2Conn ∧
      (connectCmd net s (arg0 :: rest)).2.t = s.t) ∧
    (resp.StatusCode = 101 → ∀ cc, net.NewClientConn conn = .ok cc →
      (connectCmd net s (arg0 :: rest)).1 = .ok "create a connection to server" ∧
      (connectCmd net s (arg0 :: rest)).2.client.http2Conn = some cc ∧
      (connectCmd net s (arg0 :: rest)).2.t.Status =
        "connected to " ++ connectCmd.host arg0 ∧
      Event.newClientConn conn ∈
        (connectCmd net s (arg0 :: rest)).2.trace.drop s.trace.length) := by
  rw [connectCmd_dialed net s arg0 rest conn hd, hr]
  have hclose : ∀ k, Event.newClientConn k ∉
      (match s.client.http2Conn with
        | some cc => if cc.CanTakeNewRequest then [Event.close cc.stream] else []
        | none => []) := by
    intro k
    split
    · split <;> simp
    · simp
  by_cases h101 : resp.StatusCode = 101
  · refine ⟨?_, fun h => absurd h101 h, ?_⟩
    · simp only [h101, iff_true]
      cases net.NewClientConn conn <;> exact ⟨conn, by simp⟩
    · intro _ cc hcc
      simp [h101, hcc]
  · refine ⟨?_, fun _ => ?_, fun h => absurd h h101⟩
    · simp only [h101, iff_false, not_exists]
      intro k
      simp [h101, hclose k]
    · simp [h101]

/-- C8 at `connect example.test:8080` against a peer answering 101. -/
theorem connectCmd_upgrade_witness :
    (connectCmd (peer 101) initialSession ["example.test:8080"]).1 =
        .ok "create a connection to server" ∧
      (connectCmd (peer 101) initialSession ["example.test:8080"]).2.client.http2Conn =
        some { stream := 1, closed := false, refusing := false } ∧
      (connectCmd (peer 101) initialSession ["example.test:8080"]).2.t.Status =
        "connected to " ++ connectCmd.host "example.test:8080" ∧
      Event.newClientConn 1 ∈
        (connectCmd (peer 101) initialSession ["example.test:8080"]).2.trace.drop
          initialSession.trace.length :=
  (connectCmd_upgrade (peer 101) initialSession "example.test:8080" [] 1
    { StatusCode := 101 } rfl rfl).2.2 rfl _ rfl

end H2c

namespace H2c

/-- C9, as stated, fails: from the initial session, a connect answered with 200 returns the
handshake error and leaves the dialed byte stream in the client; and from an established
session a connect whose dial fails leaves the old multiplexed-connection handle, the old
byte stream and the status text `connected to example.test:8080` in place. -/
theorem connectCmd_failure_counterexample :
    (connectCmd (peer 200) initialSession ["example.test:8080"]).1 =
      .error "The server does not support h2c" ∧
    (connectCmd (peer 200) initialSession ["example.test:8080"]).2.client.conn = some 1 ∧
    (connectCmd noPeer establishedSession ["example.test:8080"]).1 =
      .error "dial to server [example.test:8080] failed connection refused" ∧
    (connectCmd noPeer establishedSession ["example.test:8080"]).2.client.http2Conn ≠ none ∧
    (connectCmd noPeer establishedSession ["example.test:8080"]).2.client.conn ≠ none ∧
    (connectCmd noPeer establishedSession ["example.test:8080"]).2.t.Status =
      "connected to example.test:8080" := by
  decide

/-- C9, amended: for every prior session, a connect that fails leaves the terminal and its
status text as they were and creates no multiplexed connection.  After a dial failure the
byte stream and the URL are those held before and the multiplexed-connection handle is the
one held before (closed, if it was usable); after an answer other than 101 the same holds
for the multiplexed-connection handle while the client holds the newly dialed byte stream;
when the engine fails to initialise after a 101 the client holds the new byte stream and no
multiplexed connection.  The result of a connect, and after a success the byte stream, the
multiplexed connection, the URL and the status text, do not depend on the handles, the URL
or the terminal of the session it starts from. -/
theorem connectCmd_failure (net : Net) (s : Session) (arg0 : String) (rest : List String) :
    (∀ err, net.Dial (connectCmd.host arg0) = .error err →
      (connectCmd net s (arg0 :: rest)).1 =
        .error ("dial to server [" ++ connectCmd.host arg0 ++ "] failed " ++ err) ∧
      (connectCmd net s (arg0 :: rest)).2.client.conn = s.client.conn ∧
      (connectCmd net s (arg0 :: rest)).2.client.url = s.client.url ∧
      (connectCmd net s (arg0 :: rest)).2.client.http2Conn =
        closePrevious s.client.http2Conn ∧
      (connectCmd net s (arg0 :: rest)).2.t = s.t) ∧
    (∀ conn resp, net.Dial (connectCmd.host arg0) = .ok conn →
      net.ReadResponse conn (upgradeRequest (connectCmd.host arg0) s.client.settings)
        = some resp →
      resp.StatusCode ≠ 101 →
      (connectCmd net s (arg0 :: rest)).1 = .error "The server does not support h2c" ∧
      (connectCmd net s (arg0 :: rest)).2.client.conn = some conn ∧
      (connectCmd net s (arg0 :: rest)).2.client.http2Conn =
        closePrevious s.client.http2Conn ∧
      (connectCmd net s (arg0 :: rest)).2.t = s.t) ∧
    (∀ conn resp err, net.Dial (connectCmd.host arg0) = .ok conn →
      net.ReadResponse conn (upgradeRequest (connectCmd.host arg0) s.client.settings)
        = some resp →
      resp.StatusCode = 101 → net.NewClientConn conn = .error err →
      (connectCmd net s (arg0 :: rest)).1 = .error ("init HTTP/2 connection failed " ++ err) ∧
      (connectCmd net s (arg0 :: rest)).2.client.conn = some conn ∧
      (connectCmd net s (arg0 :: rest)).2.client.http2Conn = none ∧
      (connectCmd net s (arg0 :: rest)).2.t = s.t) ∧
    (closePrevious none = none) ∧
    (∀ s1 : Session, s1.client.settings = s.client.settings →
      (connectCmd net s1 (arg0 :: rest)).1 = (connectCmd net s (arg0 :: rest)).1 ∧
      ∀ msg, (connectCmd net s (arg0 :: rest)).1 = .ok msg →
        (connectCmd net s1 (arg0 :: rest)).2.client.conn =
          (connectCmd net s (arg0 :: rest)).2.client.conn ∧
        (connectCmd net s1 (arg0 :: rest)).2.client.http2Conn =
          (connectCmd net s (arg0 :: rest)).2.client.http2Conn ∧
        (connectCmd net s1 (arg0 :: rest)).2.client.url =
          (connectCmd net s (arg0 :: rest)).2.client.url ∧
        (connectCmd net s1 (arg0 :: rest)).2.t.Status =
          (connectCmd net s (arg0 :: rest)).2.t.Status) := by
  refine ⟨?_, ?_, ?_, rfl, ?_⟩
  · intro err hd
    rw [connectCmd_dial_failed net s arg0 rest err hd]
    exact ⟨rfl, rfl, rfl, rfl, rfl⟩
  · intro conn resp hd hr h101
    rw [connectCmd_dialed net s arg0 rest conn hd, hr]
    simp [h101]
  · intro conn resp err hd hr h101 he
    rw [connectCmd_dialed net s arg0 rest conn hd, hr]
    simp [h101, he]
  · intro s1 hs1
    cases hd : net.Dial (connectCmd.host arg0) with
    | error err =>
      rw [connectCmd_dial_failed net s arg0 rest err hd,
        connectCmd_dial_failed net s1 arg0 rest err hd]
      exact ⟨rfl, fun msg h => by cases h⟩
    | ok conn =>
      rw [connectCmd_dialed net s arg0 rest conn hd,
        connectCmd_dialed net s1 arg0 rest conn hd, hs1]
      cases net.ReadResponse conn (upgradeRequest (connectCmd.host arg0) s.client.settings) with
      | none => exact ⟨rfl, fun msg h => by cases h⟩
      | some resp =>
        by_cases h101 : resp.StatusCode = 101
        · cases net.NewClientConn conn with
          | error err => simp [h101]
          | ok cc => simp [h101]
        · simp [h101]

/-- C9, amended, at `connect example.test:8080` from the initial session against a peer
answering 200. -/
theorem connectCmd_failure_witness :
    (connectCmd (peer 200) initialSession ["example.test:8080"]).1 =
      .error "The server does not support h2c" ∧
    (connectCmd (peer 200) initialSession ["example.test:8080"]).2.client.conn = some 1 ∧
    (connectCmd (peer 200) initialSession ["example.test:8080"]).2.client.http2Conn =
      closePrevious initialSession.client.http2Conn ∧
    (connectCmd (peer 200) initialSession ["example.test:8080"]).2.t = initialSession.t :=
  (connectCmd_failure (peer 200) initialSession "example.test:8080" []).2.1 1
    { StatusCode := 200 } rfl rfl (by decide)

end H2c

namespace H2c

/-! ### The format check -/

theorem settingsCmd_single (s : Session) (v e : String) :
    ((settingsCmd s [v]).1 = .error e ↔ settingsCmd.body s v = .error e) ∧
      (settingsCmd.body s v = .error e → (settingsCmd s [v]).2 = s) := by
  cases hb : settingsCmd.body s v with
  | error e1 => simp [settingsCmd, settingsCmd.loop, hb]
  | ok s1 =>
    simp only [settingsCmd, settingsCmd.loop, hb, reduceCtorEq, iff_false, false_implies,
      and_true]
    split
    · simp
    · split
      · split <;> simp
      · simp

theorem apply_error_ne (s : Session) (name value v e : String)
    (h : settingsCmd.apply s name value = .error e) : e ≠ invalidFormat v := by
  have hT : (invalidFormat v).data.head? = some 'T' := by
    unfold invalidFormat
    rw [String.data_append, String.data_append]
    rfl
  have hI : e.data.head? = some 'I' := by
    unfold settingsCmd.apply at h
    cases hA : Atoi value with
    | none =>
      simp only [hA, Except.error.injEq] at h
      rw [← h, String.data_append]
      rfl
    | some cfg =>
      cases hm : settingsCmd.m name with
      | none =>
        simp only [hA, hm, Except.error.injEq] at h
        rw [← h, String.data_append]
        rfl
      | some setting =>
        simp only [hA, hm] at h
        split at h <;> cases h
  intro heq
  rw [heq, hT] at hI
  exact absurd hI (by decide)

theorem passes_split (v : String) (h : passesFormat v) :
    ∃ a b rest, splitChars '=' v.data = a :: b :: rest ∧ b ≠ [] := by
  obtain ⟨a, b, r, hv, ha, hb, hne, hr⟩ := h
  rw [hv, splitChars_append _ _ _ ha]
  rcases hr with rfl | hr
  · exact ⟨a, b, [], by rw [List.append_nil, splitChars_no_sep _ _ hb], hne⟩
  · cases r with
    | nil => simp at hr
    | cons c r1 =>
      simp only [List.head?_cons, Option.some.injEq] at hr
      subst hr
      exact ⟨a, b, splitChars '=' r1, by rw [splitChars_append _ _ _ hb], hne⟩

theorem body_format (s : Session) (v : String) :
    settingsCmd.body s v = .error (invalidFormat v) ↔ ¬ passesFormat v := by
  constructor
  · intro hb hp
    obtain ⟨a, b, rest, hsp, hne⟩ := passes_split v hp
    rw [body_apply s v a b rest hsp hne] at hb
    exact apply_error_ne s _ _ v _ hb rfl
  · intro hp
    rcases splitChars_shape '=' v.data with ⟨_, h1⟩ | ⟨a, r1, ha, hv, h1⟩
    · exact body_short s v _ h1
    · rcases splitChars_shape '=' r1 with ⟨hno, h2⟩ | ⟨b, r2, hb, hr1, h2⟩
      · by_cases hne : r1 = []
        · subst hne
          rw [h2] at h1
          exact body_empty_value s v a [] h1
        · exact absurd ⟨a, r1, [], by simpa using hv, ha, hno, hne, Or.inl rfl⟩ hp
      · by_cases hne : b = []
        · subst hne
          rw [h2] at h1
          exact body_empty_value s v a _ h1
        · exact absurd ⟨a, b, '=' :: r2, by rw [hv, hr1], ha, hb, hne, Or.inr rfl⟩ hp

/-- C10, as stated, fails: the token `push=1=2` has more than one `=`, yet from the initial
session the settings command does not fail on it; it succeeds and stores 1 as push. -/
theorem settingsCmd_format_counterexample :
    (settingsCmd initialSession ["push=1=2"]).1 =
      .ok ("Enable Push: true | Max Concurrent Streams: 250 | Init Window Size: 65535"
        ++ " | Max Frame Size: 16384") ∧
    (settingsCmd initialSession ["push=1=2"]).1 ≠ .error (invalidFormat "push=1=2") ∧
    (settingsCmd initialSession ["push=1=2"]).2.client.settings.enablePush.Val = 1 := by
  decide

/-- C10, amended: for every token and every session, the settings command given that token
fails with the invalid-format error exactly when the token does not have the shape
`name=value` followed by nothing or by a further `=` and any text, where `name` holds no
`=` and `value` is non-empty and holds no `=`; a token it fails on this way changes nothing.
So a token without `=` and a token whose value is empty are rejected, and in a token
`name=value=more` the part from the second `=` on is ignored: the round treats it as
`name=value`.  The token `push` is rejected. -/
theorem settingsCmd_format (s : Session) (v : String) :
    ((settingsCmd s [v]).1 = .error (invalidFormat v) ↔ ¬ passesFormat v) ∧
    (¬ passesFormat v → (settingsCmd s [v]).2 = s) ∧
    ('=' ∉ v.data → (settingsCmd s [v]).1 = .error (invalidFormat v)) ∧
    (∀ a : String, v = a ++ "=" → '=' ∉ a.data →
      (settingsCmd s [v]).1 = .error (invalidFormat v)) ∧
    (∀ a b r : String, v = a ++ "=" ++ b ++ "=" ++ r → '=' ∉ a.data → '=' ∉ b.data →
      b.data ≠ [] →
      passesFormat v ∧ settingsCmd.body s v = settingsCmd.body s (a ++ "=" ++ b)) ∧
    (settingsCmd initialSession ["push"]).1 = .error (invalidFormat "push") := by
  have hiff : (settingsCmd s [v]).1 = .error (invalidFormat v) ↔ ¬ passesFormat v :=
    (settingsCmd_single s v (invalidFormat v)).1.trans (body_format s v)
  refine ⟨hiff, ?_, ?_, ?_, ?_, by decide⟩
  · intro hp
    exact (settingsCmd_single s v (invalidFormat v)).2 ((body_format s v).2 hp)
  · intro hno
    apply hiff.2
    rintro ⟨a, b, r, hv, _⟩
    exact hno (by rw [hv]; simp)
  · intro a hv ha
    apply hiff.2
    rintro ⟨a1, b, r, hv1, ha1, hb, hne, _⟩
    have hd : v.data = a.data ++ '=' :: [] := by rw [hv]; simp [String.data_append]
    have h1 := splitChars_append '=' a.data [] ha
    rw [← hd, hv1, splitChars_append _ _ _ ha1] at h1
    have h2 : ∃ rest, splitChars '=' (b ++ r) = b :: rest := by
      rcases ‹r = [] ∨ r.head? = some '='› with rfl | hr
      · exact ⟨[], by rw [List.append_nil, splitChars_no_sep _ _ hb]⟩
      · cases r with
        | nil => simp at hr
        | cons c r1 =>
          simp only [List.head?_cons, Option.some.injEq] at hr
          subst hr
          exact ⟨_, splitChars_append _ _ _ hb⟩
    obtain ⟨rest, h2⟩ := h2
    rw [h2] at h1
    simp only [splitChars, List.cons.injEq] at h1
    exact hne h1.2.1
  · intro a b r hv ha hb hne
    have hd : v.data = a.data ++ '=' :: (b.data ++ '=' :: r.data) := by
      rw [hv]; simp [String.data_append]
    have hp : passesFormat v := ⟨a.data, b.data, '=' :: r.data, hd, ha, hb, hne, Or.inr rfl⟩
    refine ⟨hp, ?_⟩
    have h1 : splitChars '=' v.data = a.data :: b.data :: splitChars '=' r.data := by
      rw [hd, splitChars_append _ _ _ ha, splitChars_append _ _ _ hb]
    have h2 : splitChars '=' (a ++ "=" ++ b).data = [a.data, b.data] := by
      have : (a ++ "=" ++ b).data = a.data ++ '=' :: b.data := by simp [String.data_append]
      rw [this, splitChars_append _ _ _ ha, splitChars_no_sep _ _ hb]
    rw [body_apply s v _ _ _ h1 hne, body_apply s _ _ _ _ h2 hne]

/-- C10, amended, at the token `push=1=2` from the initial session. -/
theorem settingsCmd_format_witness :
    passesFormat "push=1=2" ∧
      settingsCmd.body initialSession "push=1=2" = settingsCmd.body initialSession "push=1" :=
  (settingsCmd_format initialSession "push=1=2").2.2.2.2.1 "push" "1" "2" (by decide)
    (by decide) (by decide) (by decide)

end H2c

namespace H2c

/-! ### Values and names -/

theorem Atoi_range_neg (n : Nat) :
    (if n ≤ 2 ^ (intSize - 1) then some (-(n : Int)) else none) =
      if -(2 ^ 63 : Int) ≤ -(n : Int) ∧ -(n : Int) < 2 ^ 63 then some (-(n : Int))
      else none := by
  by_cases hn : n ≤ 2 ^ (intSize - 1)
  · have h1 : -(2 ^ 63 : Int) ≤ -(n : Int) ∧ -(n : Int) < 2 ^ 63 := by
      simp only [intSize] at hn
      norm_num at hn ⊢
      omega
    rw [if_pos hn, if_pos h1]
  · have h1 : ¬ (-(2 ^ 63 : Int) ≤ -(n : Int) ∧ -(n : Int) < 2 ^ 63) := by
      simp only [intSize] at hn
      norm_num at hn ⊢
      omega
    rw [if_neg hn, if_neg h1]

theorem Atoi_range_pos (n : Nat) :
    (if n < 2 ^ (intSize - 1) then some (n : Int) else none) =
      if -(2 ^ 63 : Int) ≤ (n : Int) ∧ (n : Int) < 2 ^ 63 then some (n : Int) else none := by
  by_cases hn : n < 2 ^ (intSize - 1)
  · have h1 : -(2 ^ 63 : Int) ≤ (n : Int) ∧ (n : Int) < 2 ^ 63 := by
      simp only [intSize] at hn
      norm_num at hn ⊢
      omega
    rw [if_pos hn, if_pos h1]
  · have h1 : ¬ (-(2 ^ 63 : Int) ≤ (n : Int) ∧ (n : Int) < 2 ^ 63) := by
      simp only [intSize] at hn
      norm_num at hn ⊢
      omega
    rw [if_neg hn, if_neg h1]

theorem Atoi_decimalValue (value : String) :
    Atoi value =
      (decimalValue value).bind fun z =>
        if -(2 ^ 63 : Int) ≤ z ∧ z < 2 ^ 63 then some z else none := by
  unfold Atoi decimalValue
  split
  · cases h : parseUnsigned _ with
    | none => rfl
    | some n =>
      rw [Option.map_some', Option.some_bind]
      exact Atoi_range_neg n
  · cases h : parseUnsigned _ with
    | none => rfl
    | some n =>
      rw [Option.map_some', Option.some_bind]
      exact Atoi_range_pos n
  · cases h : parseUnsigned _ with
    | none => rfl
    | some n =>
      rw [Option.map_some', Option.some_bind]
      exact Atoi_range_pos n

theorem settingsCmd_of_body_error (s : Session) (v e : String)
    (h : settingsCmd.body s v = .error e) : settingsCmd s [v] = (.error e, s) := by
  simp [settingsCmd, settingsCmd.loop, h]

theorem body_pair (s : Session) (name value : String) (hn : '=' ∉ name.data)
    (hv : '=' ∉ value.data) (hne : value.data ≠ []) :
    settingsCmd.body s (name ++ "=" ++ value) = settingsCmd.apply s name value := by
  have h : splitChars '=' (name ++ "=" ++ value).data = [name.data, value.data] := by
    have : (name ++ "=" ++ value).data = name.data ++ '=' :: value.data := by
      simp [String.data_append]
    rw [this, splitChars_append _ _ _ hn, splitChars_no_sep _ _ hv]
  exact body_apply s _ _ _ _ h hne

theorem m_none_iff (name : String) :
    settingsCmd.m name = none ↔ name ∉ ["push", "maxStream", "windowSize", "frameSize"] := by
  unfold settingsCmd.m
  by_cases h1 : name = "push"
  · simp [h1]
  · by_cases h2 : name = "maxStream"
    · simp [h2]
    · by_cases h3 : name = "windowSize"
      · simp [h3]
      · by_cases h4 : name = "frameSize"
        · simp [h4]
        · simp [h1, h2, h3, h4]

end H2c

namespace H2c

theorem parseDigits_digits (cs : List Char) :
    ∀ acc n, parseDigits cs acc = some n → ∀ c ∈ cs, c.isDigit = true := by
  induction cs with
  | nil => intro _ _ _ c hc; simp at hc
  | cons x xs ih =>
    intro acc n h c hc
    simp only [parseDigits] at h
    by_cases hx : x.isDigit = true
    · simp only [hx, if_true] at h
      rcases List.mem_cons.mp hc with rfl | hc
      · exact hx
      · exact ih _ _ h c hc
    · simp [hx] at h

theorem parseUnsigned_chars (cs : List Char) (n : Nat) (h : parseUnsigned cs = some n) :
    cs ≠ [] ∧ '=' ∉ cs := by
  unfold parseUnsigned at h
  by_cases hne : cs = []
  · simp [hne] at h
  · simp only [hne, if_false] at h
    refine ⟨hne, fun hmem => ?_⟩
    have := parseDigits_digits cs 0 n h '=' hmem
    exact absurd this (by decide)

theorem Atoi_chars (value : String) (n : Int) (h : Atoi value = some n) :
    value.data ≠ [] ∧ '=' ∉ value.data := by
  unfold Atoi at h
  split at h
  · rename_i ds hd
    cases hp : parseUnsigned ds with
    | none => simp [hp] at h
    | some k =>
      have := parseUnsigned_chars ds k hp
      rw [hd]
      refine ⟨by simp, ?_⟩
      simp only [List.mem_cons, not_or]
      exact ⟨by decide, this.2⟩
  · rename_i ds hd
    cases hp : parseUnsigned ds with
    | none => simp [hp] at h
    | some k =>
      have := parseUnsigned_chars ds k hp
      rw [hd]
      refine ⟨by simp, ?_⟩
      simp only [List.mem_cons, not_or]
      exact ⟨by decide, this.2⟩
  · cases hp : parseUnsigned value.data with
    | none => simp [hp] at h
    | some k => exact parseUnsigned_chars _ k hp

theorem set_get (f : Field) (st : settings) : f.set st (f.get st) = st := by
  cases f <;> rfl

theorem apply_nonpos (s : Session) (f : Field) (value : String) (n : Int)
    (hA : Atoi value = some n) (hn : n ≤ 0) : settingsCmd.apply s f.name value = .ok s := by
  have h0 : ¬ n > 0 := by omega
  simp only [settingsCmd.apply, hA, m_name, applySetting, h0, if_false, set_get]
  rfl

theorem apply_pos (s : Session) (f : Field) (value : String) (n : Int)
    (hA : Atoi value = some n) (hn : 0 < n) :
    settingsCmd.apply s f.name value =
      .ok { s with
            client :=
              { s.client with
                settings := f.set s.client.settings
                  { f.get s.client.settings with Val := (n % 2 ^ 32).toNat } }
            t := s.t.WriteInfoMessage ("setting " ++ f.name ++ " was updated to " ++ value) } := by
  have h0 : n > 0 := hn
  simp only [settingsCmd.apply, hA, m_name, applySetting, h0, if_true]

theorem settingsCmd_congr (s : Session) (v w : String)
    (h : settingsCmd.body s v = settingsCmd.body s w) : settingsCmd s [v] = settingsCmd s [w] := by
  simp [settingsCmd, settingsCmd.loop, h]

theorem settingsCmd_of_body_same (s : Session) (v : String)
    (h : settingsCmd.body s v = .ok s) :
    (∀ e, (settingsCmd s [v]).1 ≠ .error e) ∧
    (settingsCmd s [v]).2.client = s.client ∧ (settingsCmd s [v]).2.t = s.t ∧
    ((s.client.http2Conn = none ∨ s.client.conn ≠ none) →
      (settingsCmd s [v]).1 =
        .ok (settingsCmd.updated (decide (s.client.settings.enablePush.Val > 0))
          s.client.settings)) := by
  have hl : settingsCmd.loop s [v] = (none, s) := by simp [settingsCmd.loop, h]
  have hst := settingsCmd_state s [v]
  rw [hl] at hst
  refine ⟨?_, hst.1, hst.2, ?_⟩
  · intro e
    simp only [settingsCmd, hl]
    split
    · simp
    · split
      · split <;> simp
      · simp
  · intro hwf
    simp only [settingsCmd, hl]
    cases hc : s.client.http2Conn with
    | none => rfl
    | some cc =>
      simp only
      cases hconn : s.client.conn with
      | none =>
        rcases hwf with h1 | h1
        · rw [hc] at h1; cases h1
        · exact absurd hconn h1
      | some conn =>
        by_cases hu : cc.CanTakeNewRequest = true <;> simp [hu]

end H2c

namespace H2c

/-! ### Values the command rejects or stores -/

/-- C11, as stated, fails: `9223372036854775808` is a decimal integer and `bogus` is not a
recognised name, yet `bogus=9223372036854775808` fails with the invalid-value error, not
with the unknown-setting error. -/
theorem settingsCmd_value_name_counterexample :
    decimalValue "9223372036854775808" = some 9223372036854775808 ∧
    settingsCmd.m "bogus" = none ∧
    (settingsCmd initialSession ["bogus=9223372036854775808"]).1 =
      .error "Invalid value 9223372036854775808" ∧
    (settingsCmd initialSession ["bogus=9223372036854775808"]).1 ≠
      .error "Invalid setting option bogus" := by
  decide

/-- C11, amended: for every token `name=value` with a non-empty value (neither part holding
`=`) and every session: if the value is not a decimal integer, or is one outside the range
of `int` (below `-2 ^ 63` or from `2 ^ 63` on), the settings command fails with
`Invalid value <value>` whatever the name is; if the value is a decimal integer in the range
of `int` and the name is none of push, maxStream, windowSize, frameSize, it fails with
`Invalid setting option <name>`; in each case the session is left as it was.  The tokens
`maxStream=abc` and `bogus=5` are instances. -/
theorem settingsCmd_value_name (s : Session) (name value : String)
    (hn : '=' ∉ name.data) (hv : '=' ∉ value.data) (hne : value.data ≠ []) :
    (decimalValue value = none →
      settingsCmd s [name ++ "=" ++ value] = (.error ("Invalid value " ++ value), s)) ∧
    (∀ z : Int, decimalValue value = some z → (z < -(2 ^ 63) ∨ 2 ^ 63 ≤ z) →
      settingsCmd s [name ++ "=" ++ value] = (.error ("Invalid value " ++ value), s)) ∧
    (∀ z : Int, decimalValue value = some z → -(2 ^ 63) ≤ z → z < 2 ^ 63 →
      name ∉ ["push", "maxStream", "windowSize", "frameSize"] →
      settingsCmd s [name ++ "=" ++ value] =
        (.error ("Invalid setting option " ++ name), s)) ∧
    settingsCmd initialSession ["maxStream=abc"] = (.error "Invalid value abc", initialSession) ∧
    settingsCmd initialSession ["bogus=5"] =
      (.error "Invalid setting option bogus", initialSession) := by
  have hb := body_pair s name value hn hv hne
  refine ⟨?_, ?_, ?_, by decide, by decide⟩
  · intro hd
    apply settingsCmd_of_body_error
    have hA : Atoi value = none := by rw [Atoi_decimalValue, hd]; rfl
    rw [hb]
    simp [settingsCmd.apply, hA]
  · intro z hd hz
    apply settingsCmd_of_body_error
    have hA : Atoi value = none := by
      rw [Atoi_decimalValue, hd, Option.some_bind, if_neg]
      intro h
      omega
    rw [hb]
    simp [settingsCmd.apply, hA]
  · intro z hd h1 h2 hname
    apply settingsCmd_of_body_error
    have hA : Atoi value = some z := by
      rw [Atoi_decimalValue, hd, Option.some_bind, if_pos ⟨h1, h2⟩]
    rw [hb]
    simp [settingsCmd.apply, hA, (m_none_iff name).2 hname]

/-- C11, amended, at the token `bogus=5` from the initial session. -/
theorem settingsCmd_value_name_witness :
    settingsCmd initialSession ["bogus" ++ "=" ++ "5"] =
      (.error ("Invalid setting option " ++ "bogus"), initialSession) :=
  (settingsCmd_value_name initialSession "bogus" "5" (by decide) (by decide)
    (by decide)).2.2.1 5 (by decide) (by decide) (by decide) (by decide)

/-- C16, as stated, fails: from the initial session the token `maxStream=` fails with the
invalid-format error, which is not the invalid-value error that `maxStream=abc` produces. -/
theorem settingsCmd_empty_value_counterexample :
    (settingsCmd initialSession ["maxStream="]).1 =
      .error "The cmd maxStream= is ivalid format(setting=value)" ∧
    (settingsCmd initialSession ["maxStream="]).1 ≠ .error "Invalid value " ∧
    (settingsCmd initialSession ["maxStream=abc"]).1 = .error "Invalid value abc" := by
  decide

/-- C16, amended: for each recognised name and every session, the token `<name>=` with
the empty string as value fails at the format check with the invalid-format error
`The cmd <name>= is ivalid format(setting=value)` and changes nothing; this is not the
invalid-value error, which the token `<name>=abc` produces. -/
theorem settingsCmd_empty_value (s : Session) (f : Field) :
    settingsCmd s [f.name ++ "="] = (.error (invalidFormat (f.name ++ "=")), s) ∧
    invalidFormat (f.name ++ "=") = "The cmd " ++ (f.name ++ "=")
      ++ " is ivalid format(setting=value)" ∧
    invalidFormat (f.name ++ "=") ≠ "Invalid value " ∧
    settingsCmd s [f.name ++ "=" ++ "abc"] = (.error ("Invalid value " ++ "abc"), s) := by
  refine ⟨?_, rfl, ?_, ?_⟩
  · apply settingsCmd_of_body_error
    have h : splitChars '=' (f.name ++ "=").data = [f.name.data, []] := by
      have : (f.name ++ "=").data = f.name.data ++ '=' :: [] := by simp [String.data_append]
      rw [this, splitChars_append _ _ _ (name_no_sep f)]
      rfl
    exact body_empty_value s _ _ [] h
  · cases f <;> decide
  · apply settingsCmd_of_body_error
    rw [body_name_value s f "abc" (by decide) (by decide)]
    have hA : Atoi "abc" = none := by decide
    simp [settingsCmd.apply, hA]

end H2c

namespace H2c

theorem toNat_emod (v : Nat) : ((v : Int) % 2 ^ 32).toNat = v % 2 ^ 32 := by
  have : ((v : Int) % 2 ^ 32) = ((v % 2 ^ 32 : Nat) : Int) := by norm_cast
  rw [this, Int.toNat_natCast]

theorem Atoi_neg_toString (k : Nat) :
    Atoi ("-" ++ toString k) = if k ≤ 2 ^ 63 then some (-(k : Int)) else none := by
  obtain ⟨hne, _, hval⟩ := toString_spec k
  have hd : ("-" ++ toString k).data = '-' :: (toString k).data := by
    rw [String.data_append]
    rfl
  have hp : parseUnsigned (toString k).data = some k := by
    simp [parseUnsigned, hne, hval]
  unfold Atoi
  rw [hd]
  simp only [hp]
  rfl

/-- C18: with `int` 64 bits wide, for every recognised name, every session and every
positive integer `v` that `strconv.Atoi` accepts in decimal (which it does for every `v`
below `2 ^ 63`), the token `<name>=<v>` is reported as an update of the setting to `<v>`
and the stored value becomes `v mod 2 ^ 32`; the same holds for any value text that `Atoi`
reads as a positive number.  For `v = 4294967296` the update is reported and the stored
value is 0. -/
theorem settingsCmd_stores_modulo (s : Session) (f : Field) :
    (∀ v : Nat, 0 < v → Atoi (toString v) = some (v : Int) →
      (f.get (settingsCmd s [f.name ++ "=" ++ toString v]).2.client.settings).Val
        = v % 2 ^ 32 ∧
      (settingsCmd s [f.name ++ "=" ++ toString v]).2.t.info =
        s.t.info ++ ["setting " ++ f.name ++ " was updated to " ++ toString v] ∧
      (applySetting (v : Int) (f.get s.client.settings)).1 = true) ∧
    (∀ v : Nat, v < 2 ^ 63 → Atoi (toString v) = some (v : Int)) ∧
    (∀ (value : String) (n : Int), Atoi value = some n → 0 < n →
      (f.get (settingsCmd s [f.name ++ "=" ++ value]).2.client.settings).Val
        = (n % 2 ^ 32).toNat ∧
      (settingsCmd s [f.name ++ "=" ++ value]).2.t.info =
        s.t.info ++ ["setting " ++ f.name ++ " was updated to " ++ value]) ∧
    (f.get (settingsCmd s [f.name ++ "=" ++ toString 4294967296]).2.client.settings).Val
      = 0 ∧
    (settingsCmd s [f.name ++ "=" ++ toString 4294967296]).2.t.info =
      s.t.info ++ ["setting " ++ f.name ++ " was updated to " ++ "4294967296"] ∧
    (settingsCmd initialSession ["push=4294967296"]).2.client.settings.enablePush.Val = 0 ∧
    (settingsCmd initialSession ["push=4294967296"]).2.t.info =
      ["setting push was updated to 4294967296"] := by
  have key : ∀ (value : String) (n : Int), Atoi value = some n → 0 < n →
      (f.get (settingsCmd s [f.name ++ "=" ++ value]).2.client.settings).Val
        = (n % 2 ^ 32).toNat ∧
      (settingsCmd s [f.name ++ "=" ++ value]).2.t.info =
        s.t.info ++ ["setting " ++ f.name ++ " was updated to " ++ value] := by
    intro value n hA hn
    obtain ⟨hne, hsep⟩ := Atoi_chars value n hA
    have hb := body_name_value s f value hne hsep
    rw [apply_pos s f value n hA hn] at hb
    have hst := settingsCmd_state s [f.name ++ "=" ++ value]
    simp only [settingsCmd.loop, hb] at hst
    rw [hst.1, hst.2]
    exact ⟨by rw [get_set_same], rfl⟩
  have hnum : ∀ v : Nat, 0 < v → Atoi (toString v) = some (v : Int) →
      (f.get (settingsCmd s [f.name ++ "=" ++ toString v]).2.client.settings).Val
        = v % 2 ^ 32 ∧
      (settingsCmd s [f.name ++ "=" ++ toString v]).2.t.info =
        s.t.info ++ ["setting " ++ f.name ++ " was updated to " ++ toString v] := by
    intro v hv hA
    have := key (toString v) v hA (by exact_mod_cast hv)
    rw [toNat_emod] at this
    exact this
  have h32 := hnum 4294967296 (by norm_num) (Atoi_toString _ (by norm_num))
  refine ⟨?_, fun v hv => Atoi_toString v hv, key, ?_, ?_, by decide, by decide⟩
  · intro v hv hA
    refine ⟨(hnum v hv hA).1, (hnum v hv hA).2, ?_⟩
    have : (0 : Int) < (v : Int) := by exact_mod_cast hv
    simp [applySetting, this]
  · rw [h32.1]
    norm_num
  · rw [h32.2]
    have : toString (4294967296 : Nat) = "4294967296" := by decide
    rw [this]

/-- C18 at the initial session with `push=4294967296`. -/
theorem settingsCmd_stores_modulo_witness :
    (Field.enablePush.get
        (settingsCmd initialSession
          [Field.enablePush.name ++ "=" ++ toString 4294967296]).2.client.settings).Val
      = 4294967296 % 2 ^ 32 :=
  ((settingsCmd_stores_modulo initialSession .enablePush).1 4294967296 (by decide)
    (by decide)).1

/-- C19, as stated, fails: `-9223372036854775809` is a negative integer, yet from the
initial session the token `push=-9223372036854775809` is rejected with the invalid-value
error. -/
theorem settingsCmd_negative_counterexample :
    decimalValue "-9223372036854775809" = some (-9223372036854775809) ∧
    (settingsCmd initialSession ["push=-9223372036854775809"]).1 =
      .error "Invalid value -9223372036854775809" := by
  decide

/-- C19, amended: for every recognised name, every session and every value that
`strconv.Atoi` reads as a negative `int` (in decimal, `-k` for `0 < k ≤ 2 ^ 63`), the
settings command does not reject the token: it returns no error, leaves the client with
its four stored values and the terminal unchanged, so it reports no update, and it behaves
exactly as for the token `<name>=0`; when the session holds no usable connection without a
byte stream, the result is the success text rendering the unchanged settings.  A negative
integer below `-2 ^ 63` is rejected with the invalid-value error. -/
theorem settingsCmd_negative (s : Session) (f : Field) :
    (∀ (value : String) (n : Int), Atoi value = some n → n < 0 →
      (∀ e, (settingsCmd s [f.name ++ "=" ++ value]).1 ≠ .error e) ∧
      (settingsCmd s [f.name ++ "=" ++ value]).2.client = s.client ∧
      (settingsCmd s [f.name ++ "=" ++ value]).2.t = s.t ∧
      ((s.client.http2Conn = none ∨ s.client.conn ≠ none) →
        (settingsCmd s [f.name ++ "=" ++ value]).1 =
          .ok (settingsCmd.updated (decide (s.client.settings.enablePush.Val > 0))
            s.client.settings)) ∧
      settingsCmd s [f.name ++ "=" ++ value] = settingsCmd s [f.name ++ "=0"]) ∧
    (∀ k : Nat, 0 < k → k ≤ 2 ^ 63 → Atoi ("-" ++ toString k) = some (-(k : Int))) ∧
    (∀ k : Nat, 2 ^ 63 < k →
      settingsCmd s [f.name ++ "=" ++ ("-" ++ toString k)] =
        (.error ("Invalid value " ++ ("-" ++ toString k)), s)) := by
  refine ⟨?_, ?_, ?_⟩
  · intro value n hA hn
    obtain ⟨hne, hsep⟩ := Atoi_chars value n hA
    have hb := body_name_value s f value hne hsep
    rw [apply_nonpos s f value n hA (by omega)] at hb
    have h0 : settingsCmd.body s (f.name ++ "=0") = .ok s := by
      have := body_name_value s f "0" (by decide) (by decide)
      rw [apply_nonpos s f "0" 0 (by decide) (by decide)] at this
      have e : f.name ++ "=" ++ "0" = f.name ++ "=0" := by cases f <;> decide
      rw [e] at this
      exact this
    obtain ⟨h1, h2, h3, h4⟩ := settingsCmd_of_body_same s _ hb
    exact ⟨h1, h2, h3, h4, settingsCmd_congr s _ _ (hb.trans h0.symm)⟩
  · intro k _ hk
    rw [Atoi_neg_toString, if_pos hk]
  · intro k hk
    apply settingsCmd_of_body_error
    obtain ⟨hne, hdig, _⟩ := toString_spec k
    have hd : ("-" ++ toString k).data = '-' :: (toString k).data := by
      rw [String.data_append]
      rfl
    have hsep : '=' ∉ ("-" ++ toString k).data := by
      rw [hd]
      simp only [List.mem_cons, not_or]
      exact ⟨by decide, fun h => (hdig _ h).2 rfl⟩
    rw [body_name_value s f _ (by rw [hd]; simp) hsep]
    have hA : Atoi ("-" ++ toString k) = none := by
      rw [Atoi_neg_toString, if_neg (by omega)]
    simp [settingsCmd.apply, hA]

/-- C19, amended, at the initial session with `push=-5`. -/
theorem settingsCmd_negative_witness :
    (settingsCmd initialSession [Field.enablePush.name ++ "=" ++ "-5"]).2.client =
        initialSession.client ∧
      (settingsCmd initialSession [Field.enablePush.name ++ "=" ++ "-5"]).2.t =
        initialSession.t :=
  have h := (settingsCmd_negative initialSession .enablePush).1 "-5" (-5) (by decide)
    (by decide)
  ⟨h.2.1, h.2.2.1⟩

end H2c

namespace H2c

/-! ### The `HTTP2-Settings` header -/

theorem encodeURL_char_spec : ∀ k, k < 64 →
    decodeURL (encodeURL.char k) = some k ∧ encodeURL.char k ∈ encodeURL ∧
      encodeURL.char k ≠ '=' ∧ encodeURL.char k ≠ '\r' ∧ encodeURL.char k ≠ '\n' := by
  decide

theorem encodeURL_char_mod (v : Nat) : encodeURL.char v = encodeURL.char (v % 64) := by
  simp [encodeURL.char]

theorem encode_chars (bs : List Nat) :
    ∀ c ∈ RawURLEncoding.encode bs, ∃ k, k < 64 ∧ c = encodeURL.char k := by
  have one : ∀ v : Nat, ∃ k, k < 64 ∧ encodeURL.char v = encodeURL.char k :=
    fun v => ⟨v % 64, Nat.mod_lt _ (by decide), encodeURL_char_mod v⟩
  induction bs using RawURLEncoding.encode.induct with
  | case1 a b c rest ih =>
    intro x hx
    simp only [RawURLEncoding.encode, List.mem_cons] at hx
    rcases hx with rfl | rfl | rfl | rfl | hx
    · exact one _
    · exact one _
    · exact one _
    · exact one _
    · exact ih x hx
  | case2 a b =>
    intro x hx
    simp only [RawURLEncoding.encode, List.mem_cons, List.mem_singleton, List.not_mem_nil,
      or_false] at hx
    rcases hx with rfl | rfl | rfl
    · exact one _
    · exact one _
    · exact one _
  | case3 a =>
    intro x hx
    simp only [RawURLEncoding.encode, List.mem_cons, List.mem_singleton, List.not_mem_nil,
      or_false] at hx
    rcases hx with rfl | rfl
    · exact one _
    · exact one _
  | case4 =>
    intro x hx
    simp [RawURLEncoding.encode] at hx

theorem decodeURL_char (v : Nat) (h : v < 64) : decodeURL (encodeURL.char v) = some v :=
  (encodeURL_char_spec v h).1

theorem decode_encode (bs : List Nat) :
    (∀ b ∈ bs, b < 256) → RawURLEncoding.decode (RawURLEncoding.encode bs) = some bs := by
  induction bs using RawURLEncoding.encode.induct with
  | case1 a b c rest ih =>
    intro h
    have ha : a < 256 := h a (by simp)
    have hb : b < 256 := h b (by simp)
    have hc : c < 256 := h c (by simp)
    have hrest := ih (fun x hx => h x (by simp [hx]))
    simp only [RawURLEncoding.encode, RawURLEncoding.decode,
      decodeURL_char (a / 4) (by omega), decodeURL_char (a % 4 * 16 + b / 16) (by omega),
      decodeURL_char (b % 16 * 4 + c / 64) (by omega), decodeURL_char (c % 64) (by omega),
      hrest]
    congr 2
    · omega
    · congr 1
      · omega
      · congr 1
        omega
  | case2 a b =>
    intro h
    have ha : a < 256 := h a (by simp)
    have hb : b < 256 := h b (by simp)
    simp only [RawURLEncoding.encode, RawURLEncoding.decode,
      decodeURL_char (a / 4) (by omega), decodeURL_char (a % 4 * 16 + b / 16) (by omega),
      decodeURL_char (b % 16 * 4) (by omega)]
    congr 2
    · omega
    · congr 1
      omega
  | case3 a =>
    intro h
    have ha : a < 256 := h a (by simp)
    simp only [RawURLEncoding.encode, RawURLEncoding.decode,
      decodeURL_char (a / 4) (by omega), decodeURL_char (a % 4 * 16) (by omega)]
    congr 2
    omega
  | case4 =>
    intro _
    rfl

theorem ToBytes_bytes (st : settings) : ∀ b ∈ st.ToBytes, b < 256 := by
  intro b hb
  simp only [settings.ToBytes, Setting.write, putUint16, putUint32, List.mem_append,
    List.mem_cons, List.mem_singleton, List.not_mem_nil, or_false] at hb
  omega

end H2c

namespace H2c

theorem encodeURL_char_class : ∀ k, k < 64 →
    (encodeURL.char k).isAlphanum = true ∨ encodeURL.char k = '-' ∨ encodeURL.char k = '_' := by
  decide

/-- C12: for every settings value, `addH2cUpgrade` adds exactly the three header fields
`Upgrade: h2c`, `Connection: HTTP2-Settings` and `HTTP2-Settings: <v>`, in this order, and
these are all the header fields of the upgrade request; `v` is the unpadded base64url
encoding of the 24-byte `ToBytes` payload: it has exactly 32 characters, each a letter, a
digit, `-` or `_` of the URL-safe alphabet and none of them `=`, and decoding `v` gives
back the payload.  For the default settings `v` is `AAIAAAAAAAMAAAD6AAQAAP__AAUAAEAA`. -/
theorem addH2cUpgrade_header (st : settings) (req : Request) (host : String) :
    (addH2cUpgrade req st).Header =
      req.Header ++ [("Upgrade", "h2c"), ("Connection", "HTTP2-Settings"),
        ("HTTP2-Settings", RawURLEncoding.EncodeToString st.ToBytes)] ∧
    (addH2cUpgrade req st).Method = req.Method ∧ (addH2cUpgrade req st).URL = req.URL ∧
    (upgradeRequest host st).Header =
      [("Upgrade", "h2c"), ("Connection", "HTTP2-Settings"),
        ("HTTP2-Settings", RawURLEncoding.EncodeToString st.ToBytes)] ∧
    st.ToBytes.length = 24 ∧
    (RawURLEncoding.EncodeToString st.ToBytes).length = 32 ∧
    (∀ c ∈ (RawURLEncoding.EncodeToString st.ToBytes).data,
      c ∈ encodeURL ∧ (c.isAlphanum = true ∨ c = '-' ∨ c = '_') ∧ c ≠ '=') ∧
    RawURLEncoding.DecodeString (RawURLEncoding.EncodeToString st.ToBytes) = some st.ToBytes ∧
    RawURLEncoding.EncodeToString defaultSettings.ToBytes = "AAIAAAAAAAMAAAD6AAQAAP__AAUAAEAA" := by
  have hchars : ∀ c ∈ RawURLEncoding.encode st.ToBytes,
      c ∈ encodeURL ∧ (c.isAlphanum = true ∨ c = '-' ∨ c = '_') ∧ c ≠ '=' ∧
        c ≠ '\r' ∧ c ≠ '\n' := by
    intro c hc
    obtain ⟨k, hk, rfl⟩ := encode_chars _ c hc
    have h := encodeURL_char_spec k hk
    exact ⟨h.2.1, encodeURL_char_class k hk, h.2.2.1, h.2.2.2.1, h.2.2.2.2⟩
  refine ⟨rfl, rfl, rfl, rfl, rfl, ?_, ?_, ?_, by decide⟩
  · simp [RawURLEncoding.EncodeToString, String.length, settings.ToBytes, Setting.write,
      putUint16, putUint32, RawURLEncoding.encode]
  · intro c hc
    have h := hchars c hc
    exact ⟨h.1, h.2.1, h.2.2.1⟩
  · unfold RawURLEncoding.DecodeString RawURLEncoding.EncodeToString
    have hf : (RawURLEncoding.encode st.ToBytes).filter (fun c => c != '\r' && c != '\n')
        = RawURLEncoding.encode st.ToBytes := by
      apply List.filter_eq_self.2
      intro c hc
      have h := hchars c hc
      simp [h.2.2.2.1, h.2.2.2.2]
    rw [hf]
    exact decode_encode _ (ToBytes_bytes st)

/-! ### The live settings frame -/

theorem apply_frame (s s1 : Session) (name value : String)
    (h : settingsCmd.apply s name value = .ok s1) :
    s1.client.conn = s.client.conn ∧ s1.client.http2Conn = s.client.http2Conn ∧
      s1.trace = s.trace ∧ s1.client.settings.ids = s.client.settings.ids := by
  unfold settingsCmd.apply at h
  cases hA : Atoi value with
  | none => simp [hA] at h
  | some cfg =>
    cases hm : settingsCmd.m name with
    | none => simp [hA, hm] at h
    | some setting =>
      simp only [hA, hm, applySetting] at h
      by_cases hpos : cfg > 0
      · simp only [hpos, if_true, Except.ok.injEq] at h
        subst h
        refine ⟨rfl, rfl, rfl, ?_⟩
        cases setting <;> rfl
      · simp only [hpos, if_false, Bool.false_eq_true, Except.ok.injEq] at h
        subst h
        refine ⟨rfl, rfl, rfl, ?_⟩
        cases setting <;> rfl

theorem body_frame (s s1 : Session) (v : String) (h : settingsCmd.body s v = .ok s1) :
    s1.client.conn = s.client.conn ∧ s1.client.http2Conn = s.client.http2Conn ∧
      s1.trace = s.trace ∧ s1.client.settings.ids = s.client.settings.ids := by
  rcases hsp : splitChars '=' v.data with _ | ⟨a, _ | ⟨b, rest⟩⟩
  · simp [settingsCmd.body, Split, hsp] at h
  · rw [body_short _ v a hsp] at h
    cases h
  · by_cases hb : b = []
    · subst hb
      rw [body_empty_value _ v a rest hsp] at h
      cases h
    · rw [body_apply _ v a b rest hsp hb] at h
      exact apply_frame s s1 _ _ h

theorem loop_frame (args : List String) :
    ∀ s : Session, (∀ v ∈ args, rejected v = none) →
      (settingsCmd.loop s args).1 = none ∧
      (settingsCmd.loop s args).2.client.conn = s.client.conn ∧
      (settingsCmd.loop s args).2.client.http2Conn = s.client.http2Conn ∧
      (settingsCmd.loop s args).2.trace = s.trace ∧
      (settingsCmd.loop s args).2.client.settings.ids = s.client.settings.ids := by
  induction args with
  | nil => intro s _; exact ⟨rfl, rfl, rfl, rfl, rfl⟩
  | cons v rest ih =>
    intro s h
    obtain ⟨s1, hs1⟩ := body_of_accepted s v (h v (by simp))
    obtain ⟨h1, h2, h3, h4⟩ := body_frame s s1 v hs1
    obtain ⟨i0, i1, i2, i3, i4⟩ := ih s1 (fun u hu => h u (by simp [hu]))
    simp only [settingsCmd.loop, hs1]
    exact ⟨i0, i1.trans h1, i2.trans h2, i3.trans h3, i4.trans h4⟩

end H2c

namespace H2c

/-- C13, as stated, fails: in the session left by a successful connect, the settings
command with no token writes a frame whose entries are push, windowSize, maxStream,
frameSize; its payload differs from `ToBytes`, in which maxStream comes before
windowSize. -/
theorem settingsCmd_frame_counterexample :
    added establishedSession (settingsCmd establishedSession []) =
      [.writeSettings 1
        [{ ID := 2, Val := 0 }, { ID := 4, Val := 65535 }, { ID := 3, Val := 250 },
          { ID := 5, Val := 16384 }]] ∧
    WriteSettings.payload
        [{ ID := 2, Val := 0 }, { ID := 4, Val := 65535 }, { ID := 3, Val := 250 },
          { ID := 5, Val := 16384 }] =
      [0, 2, 0, 0, 0, 0, 0, 4, 0, 0, 255, 255, 0, 3, 0, 0, 0, 250, 0, 5, 0, 0, 64, 0] ∧
    (settingsCmd establishedSession []).2.client.settings.ToBytes =
      [0, 2, 0, 0, 0, 0, 0, 3, 0, 0, 0, 250, 0, 4, 0, 0, 255, 255, 0, 5, 0, 0, 64, 0] ∧
    WriteSettings.payload
        [{ ID := 2, Val := 0 }, { ID := 4, Val := 65535 }, { ID := 3, Val := 250 },
          { ID := 5, Val := 16384 }] ≠
      (settingsCmd establishedSession []).2.client.settings.ToBytes := by
  decide

/-- C13, amended: for every session with a usable multiplexed connection on a byte stream,
when the settings command accepts all its tokens it writes exactly one settings frame, on
that stream, carrying the same four (ID, value) entries as `ToBytes` gives for the settings
the command leaves, none omitted and none added, each in the same 6-byte form, in the
order push, windowSize, maxStream, frameSize; `ToBytes` has them in the order push,
maxStream, windowSize, frameSize, so the two payloads hold the same 24 bytes with the
second and third group exchanged, and with the identifiers of `newClient` they differ. -/
theorem settingsCmd_frame (s : Session) (args : List String) (cc : ClientConn) (conn : Nat)
    (hacc : ∀ v ∈ args, rejected v = none) (hcc : s.client.http2Conn = some cc)
    (huse : cc.CanTakeNewRequest = true) (hconn : s.client.conn = some conn) :
    ∃ final : settings,
      (settingsCmd s args).2.client.settings = final ∧
      added s (settingsCmd s args) =
        [.writeSettings conn
          [final.enablePush, final.initWindowSize, final.maxConcurrentStreams,
            final.maxFrameSize]] ∧
      WriteSettings.payload
          [final.enablePush, final.initWindowSize, final.maxConcurrentStreams,
            final.maxFrameSize] =
        final.enablePush.write ++ final.initWindowSize.write ++
          final.maxConcurrentStreams.write ++ final.maxFrameSize.write ∧
      final.ToBytes =
        final.enablePush.write ++ final.maxConcurrentStreams.write ++
          final.initWindowSize.write ++ final.maxFrameSize.write ∧
      List.Perm
        [final.enablePush, final.initWindowSize, final.maxConcurrentStreams,
          final.maxFrameSize]
        [final.enablePush, final.maxConcurrentStreams, final.initWindowSize,
          final.maxFrameSize] ∧
      (WriteSettings.payload
          [final.enablePush, final.initWindowSize, final.maxConcurrentStreams,
            final.maxFrameSize]).length = 24 ∧
      (s.client.settings.ids = defaultSettings.ids →
        WriteSettings.payload
            [final.enablePush, final.initWindowSize, final.maxConcurrentStreams,
              final.maxFrameSize] ≠ final.ToBytes) := by
  obtain ⟨h0, h1, h2, h3, h4⟩ := loop_frame args s hacc
  generalize hL : settingsCmd.loop s args = L at h0 h1 h2 h3 h4
  obtain ⟨r, s1⟩ := L
  simp only at h0 h1 h2 h3 h4
  subst h0
  have hres : settingsCmd s args =
      (.ok (settingsCmd.updated (decide (s1.client.settings.enablePush.Val > 0))
          s1.client.settings),
        { s1 with
          trace := s1.trace ++
            [.writeSettings conn
              [s1.client.settings.enablePush, s1.client.settings.initWindowSize,
                s1.client.settings.maxConcurrentStreams, s1.client.settings.maxFrameSize]] }) := by
    simp [settingsCmd, hL, h2, hcc, huse, h1, hconn]
  refine ⟨s1.client.settings, by rw [hres], ?_, ?_, rfl, ?_, ?_, ?_⟩
  · rw [hres]
    simp [added, h3]
  · simp [WriteSettings.payload]
  · exact (List.Perm.swap _ _ _).cons _
  · simp [WriteSettings.payload, Setting.write, putUint16, putUint32]
  · intro hid heq
    rw [← h4] at hid
    simp only [settings.ids, defaultSettings, SettingEnablePush, SettingMaxConcurrentStreams,
      SettingInitialWindowSize, SettingMaxFrameSize, List.cons.injEq, and_true] at hid
    obtain ⟨_, hm, hw, _⟩ := hid
    simp only [WriteSettings.payload, settings.ToBytes, Setting.write, putUint16, putUint32,
      hm, hw, List.append_nil, List.cons_append, List.nil_append, List.cons.injEq] at heq
    omega

/-- C13, amended, at the session left by a successful connect, with no token. -/
theorem settingsCmd_frame_witness :
    ∃ final : settings,
      (settingsCmd establishedSession []).2.client.settings = final ∧
      added establishedSession (settingsCmd establishedSession []) =
        [.writeSettings 1
          [final.enablePush, final.initWindowSize, final.maxConcurrentStreams,
            final.maxFrameSize]] := by
  obtain ⟨final, h1, h2, _⟩ :=
    settingsCmd_frame establishedSession [] { stream := 1, closed := false, refusing := false }
      1 (by simp) (by decide) (by decide) (by decide)
  exact ⟨final, h1, h2⟩

end H2c

namespace H2c

/-! ### The `send` command -/

/-- C14: for every engine, session and argument list, a send command issued while the
client holds no multiplexed connection fails with the not-connected error and leaves the
session as it was; issued while the connection exists but cannot take a new request it
fails with "connection has been closed" and clears the status text, changing nothing else;
in neither case does the command add an event, so no probe and no request is issued.
From the initial session `send PING` fails with the not-connected error. -/
theorem sendRequestCmd_unusable (eng : Engine) (s : Session) (args : List String) :
    (s.client.http2Conn = none →
      sendRequestCmd eng s args =
        (.error "please use connect cmd to connect to server", s) ∧
      added s (sendRequestCmd eng s args) = []) ∧
    (∀ cc, s.client.http2Conn = some cc → cc.CanTakeNewRequest = false →
      sendRequestCmd eng s args =
        (.error "connection has been closed", { s with t := { s.t with Status := "" } }) ∧
      (sendRequestCmd eng s args).2.t.Status = "" ∧
      (sendRequestCmd eng s args).2.client = s.client ∧
      added s (sendRequestCmd eng s args) = []) ∧
    sendRequestCmd eng initialSession ["PING"] =
      (.error "please use connect cmd to connect to server", initialSession) := by
  refine ⟨?_, ?_, rfl⟩
  · intro h
    have : sendRequestCmd eng s args =
        (.error "please use connect cmd to connect to server", s) := by
      simp [sendRequestCmd, h]
    rw [this]
    exact ⟨rfl, by simp [added]⟩
  · intro cc h hu
    have : sendRequestCmd eng s args =
        (.error "connection has been closed", { s with t := { s.t with Status := "" } }) := by
      simp [sendRequestCmd, h, hu]
    rw [this]
    exact ⟨rfl, rfl, rfl, by simp [added]⟩

/-- C14 at a session whose connection was closed by the close command. -/
theorem sendRequestCmd_unusable_witness :
    sendRequestCmd goodEngine (closeCmd establishedSession []).2 ["PING"] =
        (.error "connection has been closed",
          { (closeCmd establishedSession []).2 with
            t := { (closeCmd establishedSession []).2.t with Status := "" } }) ∧
      added (closeCmd establishedSession []).2
        (sendRequestCmd goodEngine (closeCmd establishedSession []).2 ["PING"]) = [] :=
  have h := (sendRequestCmd_unusable goodEngine (closeCmd establishedSession []).2 ["PING"]).2.1
    { stream := 1, closed := true, refusing := false } (by decide) (by decide)
  ⟨h.1, h.2.2.2⟩

/-- C15: for every engine, every session whose multiplexed connection can take a new
request and every argument list: a probe is among the events the send command adds only
when the first token is exactly `PING`, and a request only when the first token is exactly
`GET` and a second token follows; `GET` alone fails with "GET method must have a PATH", any
first token other than `PING` and `GET` (such as `get` or `ping`) fails with "Invalid
method", the empty list fails with "no methods", and in each of these failures the session
is left as it was, so nothing is sent.  With `PING` first the probe is issued. -/
theorem sendRequestCmd_dispatch (eng : Engine) (s : Session) (cc : ClientConn)
    (args : List String) (hcc : s.client.http2Conn = some cc)
    (huse : cc.CanTakeNewRequest = true) :
    (∀ k, Event.ping k ∈ added s (sendRequestCmd eng s args) → args.head? = some "PING") ∧
    (∀ k u, Event.roundTrip k u ∈ added s (sendRequestCmd eng s args) →
      ∃ path rest, args = "GET" :: path :: rest) ∧
    (args = ["GET"] →
      sendRequestCmd eng s args = (.error "GET method must have a PATH", s)) ∧
    (∀ arg0 rest, args = arg0 :: rest → arg0 ≠ "PING" → arg0 ≠ "GET" →
      sendRequestCmd eng s args = (.error "Invalid method", s)) ∧
    (args = [] → sendRequestCmd eng s args = (.error "no methods", s)) ∧
    ((args = ["get", "/"] ∨ args = ["ping"]) →
      sendRequestCmd eng s args = (.error "Invalid method", s)) ∧
    (args.head? = some "PING" →
      added s (sendRequestCmd eng s args) = [.ping cc.stream]) := by
  have hnil : added s (.error "no methods", s) = [] := by simp [added]
  have hinv : ∀ arg0 rest, arg0 ≠ "PING" → arg0 ≠ "GET" →
      sendRequestCmd eng s (arg0 :: rest) = (.error "Invalid method", s) := by
    intro arg0 rest h1 h2
    simp [sendRequestCmd, hcc, huse, h1, h2]
  have hping : ∀ rest, added s (sendRequestCmd eng s ("PING" :: rest)) = [.ping cc.stream] := by
    intro rest
    simp only [sendRequestCmd, hcc, huse, Bool.not_true, Bool.false_eq_true, if_false, if_true]
    cases (eng.Ping cc).1 <;> simp [added]
  refine ⟨?_, ?_, ?_, ?_, ?_, ?_, ?_⟩
  · intro k hk
    cases args with
    | nil => simp [sendRequestCmd, hcc, huse, added] at hk
    | cons arg0 rest =>
      by_cases h1 : arg0 = "PING"
      · simp [h1]
      · exfalso
        by_cases h2 : arg0 = "GET"
        · subst h2
          cases rest with
          | nil => simp [sendRequestCmd, hcc, huse, added] at hk
          | cons path rest1 =>
            simp only [sendRequestCmd, hcc, huse, Bool.not_true, Bool.false_eq_true, if_false,
              if_true, h1] at hk
            by_cases hreq : eng.NewRequest (s.client.url.String ++ path) = true
            · simp only [hreq, if_true] at hk
              cases hr : (eng.RoundTrip cc (s.client.url.String ++ path)).1 <;>
                simp [hr, added] at hk
            · simp [hreq, added] at hk
        · rw [hinv arg0 rest h1 h2] at hk
          simp [added] at hk
  · intro k u hk
    cases args with
    | nil => simp [sendRequestCmd, hcc, huse, added] at hk
    | cons arg0 rest =>
      by_cases h1 : arg0 = "PING"
      · subst h1
        rw [hping rest] at hk
        simp at hk
      · by_cases h2 : arg0 = "GET"
        · subst h2
          cases rest with
          | nil => simp [sendRequestCmd, hcc, huse, added] at hk
          | cons path rest1 => exact ⟨path, rest1, rfl⟩
        · rw [hinv arg0 rest h1 h2] at hk
          simp [added] at hk
  · intro h
    subst h
    simp [sendRequestCmd, hcc, huse]
  · intro arg0 rest h h1 h2
    subst h
    exact hinv arg0 rest h1 h2
  · intro h
    subst h
    simp [sendRequestCmd, hcc, huse]
  · intro h
    rcases h with h | h
    · subst h
      exact hinv "get" ["/"] (by decide) (by decide)
    · subst h
      exact hinv "ping" [] (by decide) (by decide)
  · intro h
    cases args with
    | nil => simp at h
    | cons arg0 rest =>
      simp only [List.head?_cons, Option.some.injEq] at h
      subst h
      exact hping rest

/-- C15 at the session left by a successful connect, with `GET` and no path. -/
theorem sendRequestCmd_dispatch_witness :
    sendRequestCmd goodEngine establishedSession ["GET"] =
      (.error "GET method must have a PATH", establishedSession) :=
  (sendRequestCmd_dispatch goodEngine establishedSession
    { stream := 1, closed := false, refusing := false } ["GET"] (by decide)
    (by decide)).2.2.1 rfl

/-! ### The arguments of `connect` -/

/-- C17, as stated, fails: with two tokens the connect command does not fail; it dials
the address of the first token and succeeds, changing the client. -/
theorem connectCmd_arguments_counterexample :
    (connectCmd (peer 101) initialSession ["example.test:8080", "extra"]).1 =
      .ok "create a connection to server" ∧
    Event.dial "example.test:8080" ∈
      added initialSession
        (connectCmd (peer 101) initialSession ["example.test:8080", "extra"]) ∧
    (connectCmd (peer 101) initialSession ["example.test:8080", "extra"]).2.client ≠
      initialSession.client := by
  decide

/-- C17, amended: the connect command requires at least one argument: for the empty
argument list it fails with "missing host" without dialing and without changing the
session; for every list of one or more tokens it takes the first token as the target,
ignores the others, so that it behaves exactly as with the first token alone, and it
dials. -/
theorem connectCmd_arguments (net : Net) (s : Session) :
    connectCmd net s [] = (.error "missing host", s) ∧
    added s (connectCmd net s []) = [] ∧
    ∀ (arg0 : String) (rest : List String),
      connectCmd net s (arg0 :: rest) = connectCmd net s [arg0] ∧
      Event.dial (connectCmd.host arg0) ∈ added s (connectCmd net s (arg0 :: rest)) := by
  refine ⟨rfl, by simp [added, connectCmd], ?_⟩
  intro arg0 rest
  refine ⟨rfl, ?_⟩
  cases hd : net.Dial (connectCmd.host arg0) with
  | error err =>
    rw [connectCmd_dial_failed net s arg0 rest err hd]
    simp [added]
  | ok conn =>
    rw [connectCmd_dialed net s arg0 rest conn hd]
    cases net.ReadResponse conn (upgradeRequest (connectCmd.host arg0) s.client.settings) with
    | none => simp [added]
    | some resp =>
      by_cases h101 : resp.StatusCode = 101
      · cases net.NewClientConn conn <;> simp [added, h101]
      · simp [added, h101]

end H2c
